import Mathlib

/-!
Verification development for the Telegram scraping/parsing orchestration
subsystem of the TG backend (FastAPI + Telethon).

The Python sources are shallowly embedded as executable Lean functions:

* `ParsingProgress` and `update_progress` embed the dataclass and
  `TelegramParserService._update_progress` of
  `backend/app/services/telegram_parser.py`.
* `Db` together with `create_group`, `delete_group`, `create_members_bulk`
  embed the persistence operations of `backend/app/crud/telegram.py`
  (the rows the core touches; SQLAlchemy sessions become explicit state).
* `parse_group` and `parse_channel` embed the two orchestrators of
  `telegram_parser.py`; network calls (connect, entity resolution,
  participant/message iteration) are suspension points whose outcomes are
  supplied by an `Env` record, and Python exceptions become `Except` values.
* Cooperative cancellation is modelled by an oracle `Env.cancelAfter`:
  the flag written by `cancel_parsing` becomes observable once the scanning
  loops have performed that many iterations (the flag is monotone in the
  source: once written to the progress file, every read-modify-write of
  `_update_progress` preserves it).  `World.processed` counts those
  iterations.
* Network identifiers are decimal strings in the Python rows
  (`str(member.id)`); the embedding keeps them as `Nat`, an injective
  encoding.  Float progress percentages become `Rat`.
* The free-form human-readable message fragments interpolated from
  exceptions are kept as representative constant strings; the claims under
  verification never depend on their exact text.
-/

set_option autoImplicit false

/-- Embeds the `ParsingProgress` dataclass of `telegram_parser.py`
(default values included). -/
structure ParsingProgress where
  totalMembers : Int := 0
  currentMembers : Int := 0
  currentPhase : String := "initializing"
  phaseProgress : Rat := 0
  statusMessage : String := "Starting..."
  isCancelled : Bool := false
  currentGroupId : Option Nat := none
deriving DecidableEq

/-- Embeds `TelegramParserService._update_progress`: read the current
progress (or a fresh default), overwrite the phase, conditionally update
the counters and message, and recompute `phase_progress` only when
`total > 0`. -/
def update_progress (prev : Option ParsingProgress) (phase : String)
    (current total : Int) (message : String) : ParsingProgress :=
  let p := prev.getD {}
  let p := { p with currentPhase := phase }
  let p := if total > 0 then { p with totalMembers := total } else p
  let p := if current ≥ 0 then { p with currentMembers := current } else p
  let p := if message ≠ "" then { p with statusMessage := message } else p
  if total > 0 then
    { p with phaseProgress := ((current : Rat) / (total : Rat)) * 100 }
  else p

/-- What `TelegramParserService._reset_progress` does to the progress file:
either nothing (no file), immediate removal, or removal deferred by a
background task. -/
inductive ResetAction where
  | keep
  | removeNow
  | removeAfter (seconds : Nat)
deriving DecidableEq

/-- The delay of `TelegramParserService._delayed_reset` (`asyncio.sleep(2)`). -/
def delayed_reset_seconds : Nat := 2

/-- Embeds `TelegramParserService._reset_progress`: only a tracker currently
in phase "cancelled" is kept for a grace period (the `_delayed_reset` task);
every other existing file is removed at once. -/
def reset_progress_action : Option ParsingProgress → ResetAction
  | some p =>
      if p.currentPhase = "cancelled" then .removeAfter delayed_reset_seconds
      else .removeNow
  | none => .keep

/-- The progress file immediately after `_reset_progress` runs: a
"cancelled" record survives until the delayed task fires; anything else is
deleted on the spot. -/
def apply_reset_now : Option ParsingProgress → Option ParsingProgress
  | some p => if p.currentPhase = "cancelled" then some p else none
  | none => none

/-- A Telethon user as seen by the scanners (`telethon.tl.types.User`);
`isUser` models the `isinstance(x, TelegramUser)` checks. -/
structure TeleUser where
  id : Nat
  username : Option String := none
  firstName : Option String := none
  lastName : Option String := none
  phone : Option String := none
  bot : Bool := false
  premium : Bool := false
  isUser : Bool := true
deriving DecidableEq

/-- The per-member dict built by the scanners in `telegram_parser.py`.
`_get_comment_users` omits the `is_bot`/`is_admin`/`phone` keys; since the
orchestrator reads them through `dict.get(key, False)`, omission is modelled
as the default `false`/`none`. -/
structure MemberData where
  userId : Nat
  username : Option String := none
  firstName : Option String := none
  lastName : Option String := none
  phone : Option String := none
  isBot : Bool := false
  isAdmin : Bool := false
  isPremium : Bool := false
deriving DecidableEq

/-- Embeds `app.schemas.telegram.GroupMemberCreate` (note: no phone field). -/
structure GroupMemberCreate where
  groupId : Nat
  userId : Nat
  username : Option String := none
  firstName : Option String := none
  lastName : Option String := none
  isBot : Bool := false
  isAdmin : Bool := false
  isPremium : Bool := false
deriving DecidableEq

/-- Embeds `app.schemas.telegram.ParsedGroupCreate`. -/
structure ParsedGroupCreate where
  tgGroupId : Nat
  groupName : String := ""
  groupUsername : Option String := none
  memberCount : Nat := 0
  isPublic : Bool := true
  isChannel : Bool := false
deriving DecidableEq

/-- A row of the `parsed_groups` table (`app.database.models.ParsedGroup`). -/
structure GroupRow where
  id : Nat
  userId : Nat
  tgGroupId : Nat
  groupName : String := ""
  groupUsername : Option String := none
  memberCount : Nat := 0
  isPublic : Bool := true
  isChannel : Bool := false
deriving DecidableEq

/-- A row of the `group_members` table (`app.database.models.GroupMember`). -/
structure MemberRow where
  groupId : Nat
  userId : Nat
  username : Option String := none
  firstName : Option String := none
  lastName : Option String := none
  phone : Option String := none
  isBot : Bool := false
  isAdmin : Bool := false
  isPremium : Bool := false
deriving DecidableEq

/-- A row of the `telegram_sessions` table
(`app.database.models.TelegramSession`), restricted to the columns the
orchestrators query. -/
structure SessionRow where
  userId : Nat
  sessionString : Option String := none
  isActive : Bool := true
deriving DecidableEq

/-- The persistence store visible to the core: the tables it touches plus
the autoincrement counter of `parsed_groups.id`. -/
structure Db where
  groups : List GroupRow := []
  members : List MemberRow := []
  sessions : List SessionRow := []
  nextGroupId : Nat := 1
deriving DecidableEq

/-- Embeds `crud.telegram.create_group`: inserts a fresh row; there is no
lookup or deletion of a previous row for the same (user, network id) pair. -/
def create_group (db : Db) (objIn : ParsedGroupCreate) (userId : Nat) :
    GroupRow × Db :=
  let row : GroupRow :=
    { id := db.nextGroupId, userId := userId, tgGroupId := objIn.tgGroupId,
      groupName := objIn.groupName, groupUsername := objIn.groupUsername,
      memberCount := objIn.memberCount, isPublic := objIn.isPublic,
      isChannel := objIn.isChannel }
  (row, { db with groups := db.groups ++ [row],
                  nextGroupId := db.nextGroupId + 1 })

/-- Embeds `crud.telegram.delete_group_members`. -/
def delete_group_members (db : Db) (groupId : Nat) : Db :=
  { db with members := db.members.filter (fun m => m.groupId ≠ groupId) }

/-- Embeds `crud.telegram.delete_group`: members first, then the group row. -/
def delete_group (db : Db) (groupId : Nat) : Db :=
  let db := delete_group_members db groupId
  { db with groups := db.groups.filter (fun g => g.id ≠ groupId) }

/-- Embeds `crud.telegram.create_members_bulk`; `GroupMemberCreate` has no
phone attribute, so the `hasattr(member, 'phone')` guard always stores
`None`. -/
def create_members_bulk (db : Db) (ms : List GroupMemberCreate) : Db :=
  { db with members := db.members ++ ms.map (fun m =>
      { groupId := m.groupId, userId := m.userId, username := m.username,
        firstName := m.firstName, lastName := m.lastName, phone := none,
        isBot := m.isBot, isAdmin := m.isAdmin, isPremium := m.isPremium }) }

/-- Embeds `crud.telegram.get_group_by_id`. -/
def get_group_by_id (db : Db) (groupId : Nat) : Option GroupRow :=
  (db.groups.filter (fun g => g.id == groupId)).head?

/-- The session query both orchestrators issue: first active session row of
the user that carries a session string. -/
def active_session (db : Db) (userId : Nat) : Option SessionRow :=
  (db.sessions.filter (fun s =>
    s.userId == userId && s.isActive && s.sessionString.isSome)).head?

/-- The Group rows persisted for one (user id, network group id) pair. -/
def group_rows_for (db : Db) (userId tgId : Nat) : List GroupRow :=
  db.groups.filter (fun r => r.userId == userId && r.tgGroupId == tgId)

/-- The member rows persisted for one Group row. -/
def member_rows_for (db : Db) (groupId : Nat) : List MemberRow :=
  db.members.filter (fun m => m.groupId == groupId)

/-- Every row id already allocated lies below the autoincrement counter. -/
def Db.WF (db : Db) : Prop :=
  (∀ g ∈ db.groups, g.id < db.nextGroupId) ∧
  (∀ m ∈ db.members, m.groupId < db.nextGroupId)

/-- Embeds the database block of the legacy `simple_run.py` `parse_group`:
DELETE the members of any previous row for the (network id, user) pair,
DELETE those rows, then INSERT the fresh group and its members. -/
def simple_run_save_group (db : Db) (userId : Nat) (objIn : ParsedGroupCreate)
    (ms : List MemberData) : Db :=
  let oldIds := (db.groups.filter (fun r =>
    r.tgGroupId == objIn.tgGroupId && r.userId == userId)).map (·.id)
  let db := { db with
    members := db.members.filter (fun m => !(oldIds.contains m.groupId)),
    groups := db.groups.filter (fun r =>
      !(r.tgGroupId == objIn.tgGroupId && r.userId == userId)) }
  let row : GroupRow :=
    { id := db.nextGroupId, userId := userId, tgGroupId := objIn.tgGroupId,
      groupName := objIn.groupName, groupUsername := objIn.groupUsername,
      memberCount := objIn.memberCount, isPublic := objIn.isPublic }
  { db with
    groups := db.groups ++ [row],
    nextGroupId := db.nextGroupId + 1,
    members := db.members ++ ms.map (fun m =>
      { groupId := row.id, userId := m.userId, username := m.username,
        firstName := m.firstName, lastName := m.lastName,
        isBot := m.isBot, isAdmin := m.isAdmin }) }

/-- The message string of the canonical cancellation exception
(`ValueError("Parsing cancelled by user")`). -/
def cancelMsg : String := "Parsing cancelled by user"

/-- Cancellation oracle: the flag set by `cancel_parsing` becomes
observable once the scanning loops have performed `n` iterations. -/
def cancel_flag (cancelAfter : Option Nat) (processed : Nat) : Bool :=
  match cancelAfter with
  | none => false
  | some n => n ≤ processed

/-- The resolved chat/channel entity (outcome of the validation phase of
`parse_group`/`parse_channel`): the attributes of the Telethon entity the
orchestrators read.  `isChannelType` models `isinstance(entity, Channel)`,
`broadcast`/`restricted`/`isPrivate` the corresponding `getattr` probes. -/
structure EntityInfo where
  id : Nat
  title : String := ""
  username : Option String := none
  firstName : Option String := none
  lastName : Option String := none
  isChannelType : Bool := true
  broadcast : Bool := false
  restricted : Bool := false
  isPrivate : Bool := false
  bot : Bool := false
  premium : Bool := false
deriving DecidableEq

/-- A message of `client.iter_messages` as `_get_comment_users` sees it:
its `sender_id` and, when loadable, its sender. -/
structure MsgInfo where
  senderId : Option Nat := none
  sender : Option TeleUser := none
deriving DecidableEq

/-- The external world of one orchestrated parse: outcomes of every network
suspension point plus the cancellation oracle.  `Except` errors stand for
the exceptions Telethon raises at that call. -/
structure Env where
  connectOk : Bool := true
  resolved : Option EntityInfo := none
  fullInfoCount : Except Unit Nat := .ok 0
  adminScan : Except Unit (List Nat) := .ok []
  scanCount : Except Unit Nat := .ok 0
  participants : List TeleUser := []
  msgIter : Except String (List MsgInfo) := .ok []
  me : TeleUser := { id := 0 }
  postsIter : Except String (List Nat) := .ok []
  postComments : Nat → Except Unit (List TeleUser) := fun _ => .ok []
  cancelAfter : Option Nat := none

/-- Mutable state threaded through an orchestrated parse: the database, the
progress file, an audit trail of every phase passed to `_update_progress`,
the number of network connections opened, and the scan-iteration counter the
cancellation oracle is keyed on. -/
structure World where
  db : Db
  file : Option ParsingProgress := none
  phases : List String := []
  connects : Nat := 0
  processed : Nat := 0
deriving DecidableEq

/-- One `_update_progress` call: rewrite the file and record the phase. -/
def wupdate (w : World) (phase : String) (current total : Int)
    (message : String) : World :=
  { w with file := some (update_progress w.file phase current total message),
           phases := w.phases ++ [phase] }

/-- One cancellation probe (`get_progress()` followed by the
`is_cancelled` check). -/
def probe (env : Env) (w : World) : Bool :=
  cancel_flag env.cancelAfter w.processed

/-- Insertion-ordered dictionary (Python `dict` keyed by user id):
assignment `d[k] = v` replaces in place or appends. -/
def dupsert {α : Type} : List (Nat × α) → Nat → α → List (Nat × α)
  | [], k, v => [(k, v)]
  | (k₀, v₀) :: rest, k, v =>
      if k₀ = k then (k, v) :: rest else (k₀, v₀) :: dupsert rest k v

/-- The keys of the dictionary, in insertion order. -/
def dkeys {α : Type} (m : List (Nat × α)) : List Nat := m.map (·.1)

/-- Python `k in d`. -/
def dcontains {α : Type} (m : List (Nat × α)) (k : Nat) : Bool :=
  (dkeys m).contains k

/-- Python `list(d.values())`. -/
def dvalues {α : Type} (m : List (Nat × α)) : List α := m.map (·.2)

/-- The member dict `_get_group_members` builds for one participant. -/
def mk_member_data (admins : List Nat) (u : TeleUser) : MemberData :=
  { userId := u.id, username := u.username, firstName := u.firstName,
    lastName := u.lastName, phone := u.phone, isBot := u.bot,
    isAdmin := admins.contains u.id, isPremium := u.premium }

/-- The participant iteration of `_get_group_members`: probe the flag at the
top of every iteration, skip non-`TelegramUser` entries, and after each
processed member update progress and probe again.  `World.processed` is both
the `member_count` of the source and the cancellation-oracle clock. -/
def member_loop (env : Env) (admins : List Nat) (total : Nat) :
    List TeleUser → List MemberData → World →
    Except String (List MemberData) × World
  | rest, acc, w =>
    if probe env w then (.error cancelMsg, w)
    else
      match rest with
      | [] => (.ok acc, w)
      | u :: rest =>
        if u.isUser then
          let w := { w with processed := w.processed + 1 }
          let w := wupdate w "members" (w.processed : Int) (total : Int)
            ("Processing member " ++ toString w.processed ++ "/" ++ toString total)
          let acc := acc ++ [mk_member_data admins u]
          if probe env w then (.error cancelMsg, w)
          else member_loop env admins total rest acc w
        else member_loop env admins total rest acc w

/-- Embeds `TelegramParserService._get_group_members`: admin scan, total
member count, then the participant loop.  A failure of the admin scan or of
`GetFullChannelRequest` propagates wrapped in the outermost handler's
"Error getting group members" message; the cancellation `ValueError` is
re-raised unwrapped. -/
def get_group_members (env : Env) (w : World) :
    Except String (List MemberData) × World :=
  if probe env w then (.error cancelMsg, w)
  else
    let w := wupdate w "admins" 0 0 "Getting admin list..."
    match env.adminScan with
    | .error _ =>
        (.error "Error getting group members: admin scan failed", w)
    | .ok admins =>
      let w := wupdate w "admins" 0 0
        ("Found " ++ toString admins.length ++ " admins")
      if probe env w then (.error cancelMsg, w)
      else
        match env.scanCount with
        | .error _ =>
            (.error "Error getting group members: full channel request failed", w)
        | .ok total =>
          let w := wupdate w "members" 0 (total : Int)
            ("Found " ++ toString total ++ " total members")
          if probe env w then (.error cancelMsg, w)
          else member_loop env admins total env.participants [] w

/-- The user dict `_get_comment_users` builds for one message sender (the
source dict carries no `is_bot`/`is_admin` keys; see `MemberData`). -/
def mk_comment_user (u : TeleUser) : MemberData :=
  { userId := u.id, username := u.username, firstName := u.firstName,
    lastName := u.lastName, isPremium := u.premium }

/-- How one message extends the unique-users dict of `_get_comment_users`:
guarded by `str(message.sender_id) not in users`, keyed by `str(sender.id)`,
only for loadable `TelegramUser` senders. -/
def comment_step (users : List (Nat × MemberData)) (msg : MsgInfo) :
    List (Nat × MemberData) :=
  match msg.senderId with
  | none => users
  | some sid =>
      if dcontains users sid then users
      else
        match msg.sender with
        | some s => if s.isUser then dupsert users s.id (mk_comment_user s) else users
        | none => users

/-- The message iteration of `_get_comment_users`: probe the flag per
message, then accumulate unique senders. -/
def comment_loop (env : Env) (limit : Nat) :
    List MsgInfo → List (Nat × MemberData) → World →
    Except String (List (Nat × MemberData)) × World
  | [], users, w => (.ok users, w)
  | msg :: rest, users, w =>
    if probe env w then (.error cancelMsg, w)
    else
      let w := { w with processed := w.processed + 1 }
      let w := wupdate w "comments" (w.processed : Int) (limit : Int)
        ("Analyzing message " ++ toString w.processed ++ "/" ++ toString limit)
      comment_loop env limit rest (comment_step users msg) w

/-- The pure value of the unique-users dict `_get_comment_users` builds. -/
def comment_users_map : List MsgInfo → List (Nat × MemberData) →
    List (Nat × MemberData)
  | [], users => users
  | msg :: rest, users => comment_users_map rest (comment_step users msg)

/-- Embeds `TelegramParserService._get_comment_users`: every exception other
than the cancellation `ValueError` is caught, the phase is set to "error",
and an EMPTY list is returned instead of propagating the failure. -/
def get_comment_users (env : Env) (limit : Nat) (w : World) :
    Except String (List MemberData) × World :=
  let w := wupdate w "comments" 0 0 "Starting comment analysis..."
  match env.msgIter with
  | .error e =>
      let w := wupdate w "error" 0 0 ("Error scanning comments: " ++ e)
      (.ok [], w)
  | .ok msgs =>
    match comment_loop env limit msgs [] w with
    | (.error e, w) =>
        if e = cancelMsg then (.error cancelMsg, w)
        else
          let w := wupdate w "error" 0 0 ("Error scanning comments: " ++ e)
          (.ok [], w)
    | (.ok users, w) =>
        let w := wupdate w "comments" (limit : Int) (limit : Int)
          ("Found " ++ toString (dkeys users).length ++ " unique users")
        (.ok (dvalues users), w)

/-- The `GroupMemberCreate` the orchestrator builds from one scanner dict
(`dict.get` defaults for absent keys; see `MemberData`). -/
def to_member_create (gid : Nat) (m : MemberData) : GroupMemberCreate :=
  { groupId := gid, userId := m.userId, username := m.username,
    firstName := m.firstName, lastName := m.lastName,
    isBot := m.isBot, isAdmin := m.isAdmin, isPremium := m.isPremium }

/-- The member-object construction loop of `parse_group` (probe, progress
update, build, per scanned record). -/
def processing_loop (env : Env) (gid total : Nat) :
    List MemberData → Nat → List GroupMemberCreate → World →
    Except String (List GroupMemberCreate) × World
  | [], _, acc, w => (.ok acc, w)
  | m :: rest, idx, acc, w =>
    if probe env w then (.error cancelMsg, w)
    else
      let idx := idx + 1
      let w := wupdate w "processing" (idx : Int) (total : Int)
        ("Processing member data " ++ toString idx ++ "/" ++ toString total)
      processing_loop env gid total rest idx (acc ++ [to_member_create gid m]) w

/-- The inner `except` handler of `parse_group` (lines 565-573): when the
flag is set, delete the just-created Group and re-raise the cancellation
`ValueError`; otherwise record the error phase and re-raise. -/
def parse_group_inner_catch (env : Env) (e : String) (g : GroupRow)
    (w : World) : Except String GroupRow × World :=
  if probe env w then
    let w := { w with db := delete_group w.db g.id }
    (.error cancelMsg, w)
  else
    let w := wupdate w "error" 0 0 ("Error processing members: " ++ e)
    (.error e, w)

/-- The inner `try` region of `parse_group` (lines 490-584): run the
selected scanner, convert the records, bulk-save, mark "completed", and
perform the final flag check; exceptions go through
`parse_group_inner_catch`.  The third component is the created Group row id
for the outer handler. -/
def parse_group_scan_save (env : Env) (ent : EntityInfo) (g : GroupRow)
    (scanComments : Bool) (commentLimit : Nat) (w : World) :
    Except String GroupRow × World × Option Nat :=
  let scanRes :=
    if scanComments then
      let w := wupdate w "scanning" 0 0 "Starting message scanning..."
      get_comment_users env commentLimit w
    else
      let w := wupdate w "scanning" 0 0 "Starting member scanning..."
      if ent.isChannelType then get_group_members env w
      else
        let m1 : MemberData :=
          { userId := ent.id, username := ent.username,
            firstName := ent.firstName, lastName := ent.lastName,
            isBot := ent.bot, isPremium := ent.premium }
        if env.me.id ≠ ent.id then
          (.ok [m1,
            { userId := env.me.id, username := env.me.username,
              firstName := env.me.firstName, lastName := env.me.lastName,
              isBot := env.me.bot, isPremium := env.me.premium }], w)
        else (.ok [m1], w)
  match scanRes with
  | (.error e, w) =>
      match parse_group_inner_catch env e g w with
      | (r, w) => (r, w, some g.id)
  | (.ok members, w) =>
    if probe env w then
      match parse_group_inner_catch env cancelMsg g w with
      | (r, w) => (r, w, some g.id)
    else
      let w := wupdate w "processing" 0 0 "Processing member data..."
      match processing_loop env g.id members.length members 0 [] w with
      | (.error e, w) =>
          match parse_group_inner_catch env e g w with
          | (r, w) => (r, w, some g.id)
      | (.ok objs, w) =>
        if probe env w then
          match parse_group_inner_catch env cancelMsg g w with
          | (r, w) => (r, w, some g.id)
        else
          let w := if objs ≠ [] then
              let w := wupdate w "saving" 0 0 "Saving member data to database..."
              { w with db := create_members_bulk w.db objs }
            else w
          let w := wupdate w "completed" 0 0 "Chat parsing completed successfully"
          if probe env w then
            let w := { w with db := delete_group w.db g.id }
            (.error cancelMsg, w, some g.id)
          else (.ok g, w, some g.id)

/-- The `try` body of `TelegramParserService.parse_group`, from the
progress reset to the final return.  The third component is the id of the
Group row created by this run (for the outer handler's rollback), `none`
while no row exists yet. -/
def parse_group_body (env : Env) (w : World) (userId : Nat)
    (scanComments : Bool) (commentLimit : Nat) :
    Except String GroupRow × World × Option Nat :=
  let w := wupdate w "initialization" 0 0 "Initializing chat parsing..."
  match active_session w.db userId with
  | none =>
      (.error "No active Telegram session found. Please add a session first.",
       w, none)
  | some _ =>
    let w := wupdate w "connecting" 0 0 "Connecting to Telegram..."
    let w := { w with connects := w.connects + 1 }
    if !env.connectOk then (.error "connection failed", w, none)
    else if probe env w then (.error cancelMsg, w, none)
    else
      let w := wupdate w "validation" 0 0 "Validating chat..."
      match env.resolved with
      | none =>
          (.error "Error accessing chat: Could not find the chat.", w, none)
      | some ent =>
        let w := wupdate w "info" 0 0 "Getting chat information..."
        let infoRes : Except Unit (Nat × Bool) :=
          if ent.isChannelType then
            match env.fullInfoCount with
            | .ok c => .ok (c, ent.broadcast)
            | .error _ => .error ()
          else .ok (2, false)
        if probe env w then (.error cancelMsg, w, none)
        else
          let w := wupdate w "database" 0 0 "Creating chat record..."
          match infoRes with
          | .error _ =>
              -- the swallowed `GetFullChannelRequest` failure left the local
              -- `is_channel` unassigned; building `ParsedGroupCreate` then
              -- raises a NameError that the outer handler turns into a 400
              (.error "name is_channel is not defined", w, none)
          | .ok (memberCount, isChannel) =>
            let groupData : ParsedGroupCreate :=
              { tgGroupId := ent.id,
                groupName := if ent.title ≠ "" then ent.title else
                  ("Chat with " ++ (ent.firstName.getD "") ++ " "
                    ++ (ent.lastName.getD "")).trim,
                groupUsername := ent.username,
                memberCount := memberCount,
                isPublic := !ent.restricted,
                isChannel := isChannel }
            let gdb := create_group w.db groupData userId
            let g := gdb.1
            let w := { w with db := gdb.2 }
            let fp : ParsingProgress :=
              { (w.file.getD {}) with currentGroupId := some g.id }
            let w := { w with file := some fp }
            parse_group_scan_save env ent g scanComments commentLimit w

/-- The outer `except` handler of `parse_group` (lines 586-609): rollback
the created Group when the flag is set, record a "cancelled" or "error"
terminal phase, and raise `HTTPException(400, "Error parsing chat: ...")`. -/
def parse_group_catch (env : Env) (e : String) (createdId : Option Nat)
    (w : World) : Except String GroupRow × World :=
  let w :=
    match createdId with
    | some gid => if probe env w then { w with db := delete_group w.db gid } else w
    | none => w
  let w :=
    if probe env w then wupdate w "cancelled" 0 0 "Parsing cancelled by user"
    else wupdate w "error" 0 0 ("Error parsing chat: " ++ e)
  (.error ("Error parsing chat: " ++ e), w)

/-- The `except`-handler dispatch closing `parse_group`: a body exception
reaches the outer handler, a normal return passes through (the `finally`
clause only disconnects). -/
def parse_group_wrap (env : Env)
    (r : Except String GroupRow × World × Option Nat) :
    Except String GroupRow × World :=
  match r with
  | (.ok g, w, _) => (.ok g, w)
  | (.error e, w, createdId) => parse_group_catch env e createdId w

/-- Embeds `TelegramParserService.parse_group`.  The initial
`_reset_progress` yields a fresh (absent) progress file; the progress file
is NOT reset after the run, terminal phase included. -/
def parse_group (env : Env) (db : Db) (userId : Nat) (scanComments : Bool)
    (commentLimit : Nat) : Except String GroupRow × World :=
  parse_group_wrap env
    (parse_group_body env { db := db } userId scanComments commentLimit)

/-- The commenter dict `_get_commenters_info` builds for one reply sender. -/
def mk_commenter_data (u : TeleUser) : MemberData :=
  { userId := u.id, username := u.username, firstName := u.firstName,
    lastName := u.lastName, isBot := u.bot, isPremium := u.premium }

/-- Embeds `TelegramParserService._get_commenters_info`: iterate the reply
thread of one post, dedupe senders by id, and re-raise a whole-iteration
failure (per-reply failures are skipped inside the stream). -/
def get_commenters_info (env : Env) (pid : Nat) :
    Except Unit (List MemberData) :=
  match env.postComments pid with
  | .error _ => .error ()
  | .ok replies =>
      .ok (dvalues (replies.foldl
        (fun acc u =>
          if u.isUser then dupsert acc u.id (mk_commenter_data u) else acc) []))

/-- The per-post loop of `parse_channel` (lines 776-790): probe, progress
update, fetch the post's commenters inside a `try` whose handler skips the
post, and merge the survivors into the cross-post dict by user id. -/
def posts_loop (env : Env) (total : Nat) :
    List Nat → Nat → List (Nat × MemberData) → World →
    Except String (List (Nat × MemberData)) × World
  | [], _, acc, w => (.ok acc, w)
  | pid :: rest, idx, acc, w =>
    if probe env w then (.error cancelMsg, w)
    else
      let idx := idx + 1
      let w := wupdate w "processing" (idx : Int) (total : Int)
        ("Processing post " ++ toString idx ++ "/" ++ toString total)
      let w := { w with processed := w.processed + 1 }
      match get_commenters_info env pid with
      | .error _ => posts_loop env total rest idx acc w
      | .ok cs =>
          posts_loop env total rest idx
            (cs.foldl (fun a c => dupsert a c.userId c) acc) w

/-- The pure value of the merged commenter dict the per-post loop builds. -/
def collect_commenters (env : Env) :
    List Nat → List (Nat × MemberData) → List (Nat × MemberData)
  | [], acc => acc
  | pid :: rest, acc =>
      match get_commenters_info env pid with
      | .error _ => collect_commenters env rest acc
      | .ok cs =>
          collect_commenters env rest (cs.foldl (fun a c => dupsert a c.userId c) acc)

/-- The member-object construction loop over unique commenters
(`parse_channel` lines 795-810), probing cancellation per commenter. -/
def commenter_save_loop (env : Env) (gid : Nat) :
    List MemberData → List GroupMemberCreate → World →
    Except String (List GroupMemberCreate) × World
  | [], acc, w => (.ok acc, w)
  | c :: rest, acc, w =>
    if probe env w then (.error cancelMsg, w)
    else
      let w := { w with processed := w.processed + 1 }
      commenter_save_loop env gid rest (acc ++ [to_member_create gid c]) w

/-- Lines 827-835 of `parse_channel`: a last flag check (delete the Group
when cancelled), then re-read and return the Group row.  The third component
is the local `progress.current_group_id` value the `finally` clause will
see. -/
def after_channel_inner (env : Env) (g : GroupRow) (w : World) :
    Except String (Option GroupRow) × World × Option Nat :=
  let gid := (w.file.getD {}).currentGroupId
  if probe env w && gid.isSome then
    let w := { w with db := delete_group w.db (gid.getD 0) }
    (.ok (get_group_by_id w.db g.id), w, none)
  else
    (.ok (get_group_by_id w.db g.id), w, gid)

/-- The inner `except` handler of `parse_channel` (lines 817-825): on a set
flag, delete the created Group and re-raise the cancellation `ValueError`;
otherwise record the error phase and FALL THROUGH to the normal return (the
handler does not re-raise). -/
def channel_inner_catch (env : Env) (e : String) (g : GroupRow) (w : World) :
    Except String (Option GroupRow) × World × Option Nat :=
  let gid := (w.file.getD {}).currentGroupId
  if probe env w && gid.isSome then
    let w := { w with db := delete_group w.db (gid.getD 0) }
    (.error cancelMsg, w, none)
  else
    let w := wupdate w "error" 0 0
      ("Error processing posts and comments: " ++ e)
    after_channel_inner env g w

/-- The inner `try` region of `parse_channel` (lines 768-825) plus the
post-`try` flag check and return (lines 827-835): fetch the post ids, merge
commenters per post, convert and bulk-save the unique commenters, mark
"completed"; exceptions go through `channel_inner_catch`. -/
def parse_channel_scan_save (env : Env) (g : GroupRow) (postLimit : Nat)
    (w : World) : Except String (Option GroupRow) × World × Option Nat :=
  let w := wupdate w "scanning" 0 0
    ("Getting channel posts (limit: " ++ toString postLimit ++ ")...")
  match env.postsIter with
  | .error e =>
      channel_inner_catch env ("posts fetch failed: " ++ e) g w
  | .ok postIds =>
    let w := wupdate w "scanning" 0 0
      ("Found " ++ toString postIds.length ++ " posts")
    match posts_loop env postIds.length postIds 0 [] w with
    | (.error e, w) => channel_inner_catch env e g w
    | (.ok allCommenters, w) =>
      let w := wupdate w "saving" 0 0
        ("Saving " ++ toString (dkeys allCommenters).length
          ++ " unique commenters...")
      match commenter_save_loop env g.id (dvalues allCommenters) [] w with
      | (.error e, w) => channel_inner_catch env e g w
      | (.ok objs, w) =>
        let w := if objs ≠ [] then
            { w with db := create_members_bulk w.db objs }
          else w
        let w := wupdate w "completed" 0 0
          "Channel parsing completed successfully"
        after_channel_inner env g w

/-- The `try` body of `TelegramParserService.parse_channel`. -/
def parse_channel_body (env : Env) (w : World) (userId postLimit : Nat) :
    Except String (Option GroupRow) × World × Option Nat :=
  let w := wupdate w "initialization" 0 0 "Initializing channel parsing..."
  match active_session w.db userId with
  | none =>
      (.error "No active Telegram session found. Please add a session first.",
       w, none)
  | some _ =>
    let w := wupdate w "connecting" 0 0 "Connecting to Telegram..."
    let w := { w with connects := w.connects + 1 }
    if !env.connectOk then (.error "connection failed", w, none)
    else if probe env w then (.error cancelMsg, w, none)
    else
      let w := wupdate w "validation" 0 0 "Validating channel..."
      match env.resolved with
      | none =>
          (.error "Error accessing channel: Could not find the channel.", w, none)
      | some ent =>
        if !(ent.isChannelType && ent.broadcast) then
          (.error "The provided link is not a channel", w, none)
        else
          let w := wupdate w "info" 0 0 "Getting channel information..."
          match env.fullInfoCount with
          | .error _ => (.error "GetFullChannelRequest failed", w, none)
          | .ok cnt =>
            if probe env w then (.error cancelMsg, w, none)
            else
              let w := wupdate w "database" 0 0 "Creating channel record..."
              let isPub := ent.username.isSome && !ent.restricted && !ent.isPrivate
              let groupData : ParsedGroupCreate :=
                { tgGroupId := ent.id, groupName := ent.title,
                  groupUsername := ent.username, memberCount := cnt,
                  isPublic := isPub, isChannel := true }
              let gdb := create_group w.db groupData userId
              let g := gdb.1
              let w := { w with db := gdb.2 }
              let fp : ParsingProgress :=
                { (w.file.getD {}) with currentGroupId := some g.id }
              let w := { w with file := some fp }
              parse_channel_scan_save env g postLimit w

/-- The outer `except` handler of `parse_channel` (lines 837-846): rollback
on a set flag, record an "error" phase (even on cancellation), and re-raise
the original exception.  The second component is the local
`progress.current_group_id` the `finally` clause will see (cleared when the
handler deleted the Group). -/
def parse_channel_catch (env : Env) (e : String) (w : World) :
    (Except String (Option GroupRow) × World) × Option Nat :=
  let gid := (w.file.getD {}).currentGroupId
  if probe env w && gid.isSome then
    let w := { w with db := delete_group w.db (gid.getD 0) }
    let w := wupdate w "error" 0 0 ("Error parsing channel: " ++ e)
    ((.error e, w), none)
  else
    let w := wupdate w "error" 0 0 ("Error parsing channel: " ++ e)
    ((.error e, w), gid)

/-- The `asyncio.sleep(1)` of the `finally` clause of `parse_channel`. -/
def channel_finally_sleep_seconds : Nat := 1

/-- The `finally` clause of `parse_channel`: one more rollback attempt when
the flag is set and the local `current_group_id` survived, disconnect, wait
one second, then `_reset_progress` (which deletes the file unless its phase
is "cancelled"). -/
def channel_finally (env : Env) (w : World) (localGid : Option Nat) : World :=
  let w := if probe env w && localGid.isSome then
      { w with db := delete_group w.db (localGid.getD 0) }
    else w
  { w with file := apply_reset_now w.file }

/-- The handler/`finally` dispatch closing `parse_channel`. -/
def parse_channel_wrap (env : Env)
    (r : Except String (Option GroupRow) × World × Option Nat) :
    Except String (Option GroupRow) × World :=
  match r with
  | (.ok gr, w, localGid) => (.ok gr, channel_finally env w localGid)
  | (.error e, w, _) =>
      match parse_channel_catch env e w with
      | ((r, w), localGid) => (r, channel_finally env w localGid)

/-- Embeds `TelegramParserService.parse_channel`. -/
def parse_channel (env : Env) (db : Db) (userId postLimit : Nat) :
    Except String (Option GroupRow) × World :=
  parse_channel_wrap env (parse_channel_body env { db := db } userId postLimit)

/-- Embeds `TelegramParserService.get_bot_tokens` (both variants): parse the
comma-separated configuration value once; an empty value is a fatal
`ValueError`. -/
def get_bot_tokens (envValue : String) : Except String (List String) :=
  if envValue = "" then .error "No bot tokens found in environment variables"
  else .ok ((envValue.splitOn ",").map (·.trim))

/-- The rotation cursor of the class-held bot-token pool. -/
structure TokenState where
  tokens : List String
  idx : Nat := 0
deriving DecidableEq

/-- Embeds `TelegramParserService.get_next_bot_token`: raise on an empty
pool, else hand out `tokens[idx]` and advance the cursor modulo the pool
size. -/
def get_next_bot_token (ts : TokenState) : Except String (String × TokenState) :=
  if ts.tokens = [] then .error "No bot tokens available"
  else .ok (ts.tokens.getD ts.idx "",
    { ts with idx := (ts.idx + 1) % ts.tokens.length })

/-- The total draw used inside the retry loop (the pool is non-empty there,
`get_bot_tokens` having already succeeded). -/
def next_token_total (ts : TokenState) : String × TokenState :=
  (ts.tokens.getD ts.idx "", { ts with idx := (ts.idx + 1) % ts.tokens.length })

/-- Outcome of one `simple_run.py` parse attempt (one loop body execution):
success, a Telethon rate limit (`FloodWaitError` with its advertised wait),
a `UserDeactivatedBanError`, an in-attempt `HTTPException`, or any other
exception. -/
inductive AttemptResult where
  | success
  | floodWait (seconds : Nat)
  | bannedToken
  | httpErr (status : Nat) (detail : String)
  | otherErr (msg : String)
deriving DecidableEq

/-- What the `simple_run.py` `parse_group` ultimately does: return the
parsed group or raise an `HTTPException`. -/
inductive SimpleOutcome where
  | ok
  | http (status : Nat) (detail : String)
deriving DecidableEq

/-- The post-loop error surfacing of `simple_run.py` `parse_group`
(lines 413-423). -/
def finish_simple : Option AttemptResult → SimpleOutcome
  | some (.floodWait s) =>
      .http 429 ("Rate limit exceeded. Please try again in "
        ++ toString s ++ " seconds")
  | some .bannedToken => .http 403 "Bot token is no longer valid"
  | some (.otherErr m) => .http 500 m
  | some (.httpErr status detail) => .http status detail
  | some .success => .http 500 "All bot tokens are exhausted or invalid"
  | none => .http 500 "All bot tokens are exhausted or invalid"

/-- The `for _ in range(len(bot_tokens))` retry loop of `simple_run.py`
`parse_group`: a rate limit or banned token rotates to the next credential
and retries the whole attempt from connection; an `HTTPException` is
re-raised at once; any other failure breaks out and is surfaced.  `attempt`
gives the outcome of the i-th attempt; the second result component is the
list of tokens actually used, in order. -/
def simple_retry_loop (attempt : Nat → AttemptResult) :
    Nat → String → TokenState → Option AttemptResult → List String → Nat →
    SimpleOutcome × List String
  | 0, _, _, lastErr, used, _ => (finish_simple lastErr, used)
  | fuel + 1, tok, ts, _lastErr, used, i =>
    match attempt i with
    | .success => (.ok, used ++ [tok])
    | .httpErr status detail => (.http status detail, used ++ [tok])
    | .bannedToken =>
        let d := next_token_total ts
        simple_retry_loop attempt fuel d.1 d.2 (some .bannedToken)
          (used ++ [tok]) (i + 1)
    | .floodWait s =>
        let d := next_token_total ts
        simple_retry_loop attempt fuel d.1 d.2 (some (.floodWait s))
          (used ++ [tok]) (i + 1)
    | .otherErr m => (finish_simple (some (.otherErr m)), used ++ [tok])

/-- Embeds the retry protocol of `simple_run.py` `parse_group`: `__init__`
draws the first token, then the loop runs at most `len(bot_tokens)`
attempts. -/
def simple_parse_group (attempt : Nat → AttemptResult) (ts : TokenState) :
    SimpleOutcome × List String :=
  let d := next_token_total ts
  simple_retry_loop attempt ts.tokens.length d.1 d.2 none [] 0

/-- Embeds `ChannelParseRequest.validate_post_limit`
(`app/schemas/telegram.py` lines 151-157). -/
def validate_post_limit (v : Int) : Except String Int :=
  if v ≤ 0 then .error "post_limit must be greater than 0"
  else if v > 100 then .error "post_limit cannot exceed 100"
  else .ok v

/-- Whether an `Except` carries a value. -/
def except_ok {ε α : Type} : Except ε α → Bool
  | .ok _ => true
  | .error _ => false

/-- The `/parse-channel/` endpoint gate: FastAPI validates the request body
(including `validate_post_limit`) before the handler runs, so a rejected
`post_limit` never constructs the parser, never connects, and touches no
state. -/
def parse_channel_endpoint (env : Env) (db : Db) (userId : Nat)
    (postLimit : Int) : Except String (Option GroupRow) × World :=
  match validate_post_limit postLimit with
  | .error e => (.error e, { db := db })
  | .ok v => parse_channel env db userId v.toNat

/-! ## Basic lemmas about the state transformers -/

@[simp] theorem wupdate_db (w : World) (p : String) (c t : Int) (m : String) :
    (wupdate w p c t m).db = w.db := rfl

@[simp] theorem wupdate_connects (w : World) (p : String) (c t : Int) (m : String) :
    (wupdate w p c t m).connects = w.connects := rfl

@[simp] theorem wupdate_processed (w : World) (p : String) (c t : Int) (m : String) :
    (wupdate w p c t m).processed = w.processed := rfl

@[simp] theorem wupdate_phases (w : World) (p : String) (c t : Int) (m : String) :
    (wupdate w p c t m).phases = w.phases ++ [p] := rfl

@[simp] theorem wupdate_file (w : World) (p : String) (c t : Int) (m : String) :
    (wupdate w p c t m).file = some (update_progress w.file p c t m) := rfl

@[simp] theorem probe_wupdate (env : Env) (w : World) (p : String) (c t : Int)
    (m : String) : probe env (wupdate w p c t m) = probe env w := rfl

theorem probe_of_none {env : Env} (h : env.cancelAfter = none) (w : World) :
    probe env w = false := by
  simp [probe, cancel_flag, h]

theorem probe_eq_decide {env : Env} {n : Nat} (h : env.cancelAfter = some n)
    (w : World) : probe env w = decide (n ≤ w.processed) := by
  simp [probe, cancel_flag, h]

@[simp] theorem update_progress_currentPhase (prev : Option ParsingProgress)
    (phase : String) (c t : Int) (m : String) :
    (update_progress prev phase c t m).currentPhase = phase := by
  simp only [update_progress]
  split <;> split <;> split <;> rfl

@[simp] theorem delete_group_sessions (db : Db) (gid : Nat) :
    (delete_group db gid).sessions = db.sessions := rfl

@[simp] theorem delete_group_nextGroupId (db : Db) (gid : Nat) :
    (delete_group db gid).nextGroupId = db.nextGroupId := rfl

/-! ## Loop characterization lemmas -/

/-- The scanned member records of a full membership scan. -/
def scanned_members (env : Env) (admins : List Nat) : List MemberData :=
  (env.participants.filter (·.isUser)).map (mk_member_data admins)

/-- Without a cancellation request the participant loop completes and
returns every `TelegramUser` participant, normalized, in order; only the
progress file and audit trail change. -/
theorem member_loop_no_cancel (env : Env) (admins : List Nat) (total : Nat)
    (h : env.cancelAfter = none) :
    ∀ (rest : List TeleUser) (acc : List MemberData) (w : World),
    ∃ w', member_loop env admins total rest acc w =
        (.ok (acc ++ (rest.filter (·.isUser)).map (mk_member_data admins)), w') ∧
      w'.db = w.db ∧ w'.connects = w.connects := by
  intro rest
  induction rest with
  | nil =>
      intro acc w
      exact ⟨w, by simp [member_loop, probe_of_none h], rfl, rfl⟩
  | cons u rest ih =>
      intro acc w
      by_cases hu : u.isUser
      · obtain ⟨w', hw', hdb, hcon⟩ := ih (acc ++ [mk_member_data admins u])
          (wupdate { w with processed := w.processed + 1 } "members"
            ((w.processed + 1 : Nat) : Int) (total : Int)
            ("Processing member " ++ toString (w.processed + 1) ++ "/"
              ++ toString total))
        refine ⟨w', ?_, by simpa using hdb, by simpa using hcon⟩
        simp only [member_loop, probe_of_none h, if_false, Bool.false_eq_true,
          hu, if_true, hw', List.filter_cons, List.map_cons]
        simp [hu, List.append_assoc]
      · obtain ⟨w', hw', hdb, hcon⟩ := ih acc w
        refine ⟨w', ?_, hdb, hcon⟩
        simp only [member_loop, probe_of_none h, Bool.false_eq_true, if_false, hu]
        simp [hw', List.filter_cons, hu]


/-- With the flag due to arrive mid-scan (after more members than already
processed but no more than the user-type participants remaining), the
participant loop raises the cancellation error, leaving the database
untouched, and the flag is observable from then on. -/
theorem member_loop_cancel (env : Env) (admins : List Nat) (total n : Nat)
    (h : env.cancelAfter = some n) :
    ∀ (rest : List TeleUser) (acc : List MemberData) (w : World),
    w.processed < n → n ≤ w.processed + (rest.filter (·.isUser)).length →
    ∃ w', member_loop env admins total rest acc w = (.error cancelMsg, w') ∧
      w'.db = w.db ∧ w'.connects = w.connects ∧ n ≤ w'.processed := by
  intro rest
  induction rest with
  | nil =>
      intro acc w hlt hle
      simp only [List.filter_nil, List.length_nil, Nat.add_zero] at hle
      omega
  | cons u rest ih =>
      intro acc w hlt hle
      have hp : probe env w = false := by
        rw [probe_eq_decide h]; simpa using Nat.not_le.mpr hlt
      by_cases hu : u.isUser
      · by_cases hn : n ≤ w.processed + 1
        · refine ⟨wupdate { w with processed := w.processed + 1 } "members"
            ((({ w with processed := w.processed + 1 } : World).processed : Nat) : Int)
            (total : Int)
            ("Processing member "
              ++ toString ({ w with processed := w.processed + 1 } : World).processed
              ++ "/" ++ toString total), ?_, rfl, rfl, by simpa using hn⟩
          have hp2 : probe env ({ w with processed := w.processed + 1 } : World) = true := by
            rw [probe_eq_decide h]; simpa using hn
          simp only [member_loop, hp, Bool.false_eq_true, if_false, hu, if_true,
            probe_wupdate, hp2]
        · have hle2 : n ≤ w.processed + 1 + (rest.filter (·.isUser)).length := by
            simp only [List.filter_cons, hu, if_true, List.length_cons] at hle
            omega
          obtain ⟨w', hw', hdb, hcon, hproc⟩ := ih (acc ++ [mk_member_data admins u])
            (wupdate { w with processed := w.processed + 1 } "members"
              ((({ w with processed := w.processed + 1 } : World).processed : Nat) : Int)
              (total : Int)
              ("Processing member "
                ++ toString ({ w with processed := w.processed + 1 } : World).processed
                ++ "/" ++ toString total))
            (by simpa using Nat.lt_of_not_le hn) (by simpa using hle2)
          have hp2 : probe env ({ w with processed := w.processed + 1 } : World) = false := by
            rw [probe_eq_decide h]; simpa using Nat.lt_of_not_le hn
          refine ⟨w', ?_, by simpa using hdb, by simpa using hcon, hproc⟩
          simp only [member_loop, hp, Bool.false_eq_true, if_false, hu, if_true,
            probe_wupdate, hp2, hw']
      · simp only [List.filter_cons, hu, Bool.false_eq_true, if_false] at hle
        obtain ⟨w', hw', hdb, hcon, hproc⟩ := ih acc w hlt hle
        refine ⟨w', ?_, hdb, hcon, hproc⟩
        simp [member_loop, hp, hu, hw']

/-- Without a cancellation request the message loop of `_get_comment_users`
completes with the deduplicated sender dict; only progress state changes. -/
theorem comment_loop_ok (env : Env) (limit : Nat) (h : env.cancelAfter = none) :
    ∀ (msgs : List MsgInfo) (users : List (Nat × MemberData)) (w : World),
    ∃ w', comment_loop env limit msgs users w =
        (.ok (comment_users_map msgs users), w') ∧
      w'.db = w.db ∧ w'.connects = w.connects := by
  intro msgs
  induction msgs with
  | nil => intro users w; exact ⟨w, by simp [comment_loop, comment_users_map], rfl, rfl⟩
  | cons msg rest ih =>
      intro users w
      obtain ⟨w', hw', hdb, hcon⟩ := ih (comment_step users msg)
        (wupdate { w with processed := w.processed + 1 } "comments"
          ((({ w with processed := w.processed + 1 } : World).processed : Nat) : Int)
          (limit : Int)
          ("Analyzing message "
            ++ toString ({ w with processed := w.processed + 1 } : World).processed
            ++ "/" ++ toString limit))
      refine ⟨w', ?_, by simpa using hdb, by simpa using hcon⟩
      simp only [comment_loop, probe_of_none h, Bool.false_eq_true, if_false,
        comment_users_map, hw']

/-- Without a cancellation request the member-object construction loop of
`parse_group` completes, converting each record in order. -/
theorem processing_loop_ok (env : Env) (gid total : Nat)
    (h : env.cancelAfter = none) :
    ∀ (ms : List MemberData) (idx : Nat) (acc : List GroupMemberCreate) (w : World),
    ∃ w', processing_loop env gid total ms idx acc w =
        (.ok (acc ++ ms.map (to_member_create gid)), w') ∧
      w'.db = w.db ∧ w'.connects = w.connects := by
  intro ms
  induction ms with
  | nil => intro idx acc w; exact ⟨w, by simp [processing_loop], rfl, rfl⟩
  | cons m rest ih =>
      intro idx acc w
      obtain ⟨w', hw', hdb, hcon⟩ := ih (idx + 1) (acc ++ [to_member_create gid m])
        (wupdate w "processing" ((idx + 1 : Nat) : Int) (total : Int)
          ("Processing member data " ++ toString (idx + 1) ++ "/" ++ toString total))
      refine ⟨w', ?_, by simpa using hdb, by simpa using hcon⟩
      simp only [processing_loop, probe_of_none h, Bool.false_eq_true, if_false, hw']
      simp

@[simp] theorem update_progress_currentGroupId (prev : Option ParsingProgress)
    (phase : String) (c t : Int) (m : String) :
    (update_progress prev phase c t m).currentGroupId
      = (prev.getD {}).currentGroupId := by
  simp only [update_progress]
  split <;> split <;> split <;> rfl

/-- The rollback anchor stored in the progress file
(`progress.current_group_id` as the handlers read it). -/
def file_gid (w : World) : Option Nat :=
  (w.file.getD {}).currentGroupId

@[simp] theorem file_gid_wupdate (w : World) (p : String) (c t : Int)
    (m : String) : file_gid (wupdate w p c t m) = file_gid w := by
  simp [file_gid]

/-- The per-post loop of `parse_channel` completes with the merged commenter
dict whenever the flag cannot fire during it: a failing post is skipped,
never propagated out of the loop. -/
theorem posts_loop_complete (env : Env) (total : Nat) :
    ∀ (rest : List Nat) (idx : Nat) (acc : List (Nat × MemberData)) (w : World),
    (∀ k, w.processed ≤ k → k < w.processed + rest.length →
      cancel_flag env.cancelAfter k = false) →
    ∃ w', posts_loop env total rest idx acc w =
        (.ok (collect_commenters env rest acc), w') ∧
      w'.db = w.db ∧ w'.connects = w.connects ∧
      w'.processed = w.processed + rest.length ∧ file_gid w' = file_gid w := by
  intro rest
  induction rest with
  | nil =>
      intro idx acc w _
      exact ⟨w, by simp [posts_loop, collect_commenters], rfl, rfl, by simp, rfl⟩
  | cons pid rest ih =>
      intro idx acc w hsafe
      have hp : probe env w = false := by
        simpa [probe] using hsafe w.processed (Nat.le_refl _) (by simp)
      have hsafe2 : ∀ k, w.processed + 1 ≤ k → k < w.processed + 1 + rest.length →
          cancel_flag env.cancelAfter k = false := by
        intro k h1 h2
        exact hsafe k (by omega) (by simp only [List.length_cons]; omega)
      cases hgc : get_commenters_info env pid with
      | error e =>
          obtain ⟨w', hw', hdb, hcon, hproc, hfg⟩ := ih (idx + 1) acc
            ({ (wupdate w "processing" ((idx + 1 : Nat) : Int) (total : Int)
              ("Processing post " ++ toString (idx + 1) ++ "/" ++ toString total)) with
              processed := (wupdate w "processing" ((idx + 1 : Nat) : Int) (total : Int)
                ("Processing post " ++ toString (idx + 1) ++ "/" ++ toString total)).processed + 1 })
            (by simpa using hsafe2)
          refine ⟨w', ?_, by simpa using hdb, by simpa using hcon, ?_, ?_⟩
          · simp only [posts_loop, hp, Bool.false_eq_true, if_false, hgc, hw',
              collect_commenters]
          · simp at hproc
            simp only [List.length_cons]
            omega
          · rw [hfg]
            simp [file_gid]
      | ok cs =>
          obtain ⟨w', hw', hdb, hcon, hproc, hfg⟩ := ih (idx + 1)
            (cs.foldl (fun a c => dupsert a c.userId c) acc)
            ({ (wupdate w "processing" ((idx + 1 : Nat) : Int) (total : Int)
              ("Processing post " ++ toString (idx + 1) ++ "/" ++ toString total)) with
              processed := (wupdate w "processing" ((idx + 1 : Nat) : Int) (total : Int)
                ("Processing post " ++ toString (idx + 1) ++ "/" ++ toString total)).processed + 1 })
            (by simpa using hsafe2)
          refine ⟨w', ?_, by simpa using hdb, by simpa using hcon, ?_, ?_⟩
          · simp only [posts_loop, hp, Bool.false_eq_true, if_false, hgc, hw',
              collect_commenters]
          · simp at hproc
            simp only [List.length_cons]
            omega
          · rw [hfg]
            simp [file_gid]

/-- The commenter-save loop completes whenever the flag cannot fire during
it, building one `GroupMemberCreate` per unique commenter, in order. -/
theorem commenter_save_loop_complete (env : Env) (gid : Nat) :
    ∀ (rest : List MemberData) (acc : List GroupMemberCreate) (w : World),
    (∀ k, w.processed ≤ k → k < w.processed + rest.length →
      cancel_flag env.cancelAfter k = false) →
    ∃ w', commenter_save_loop env gid rest acc w =
        (.ok (acc ++ rest.map (to_member_create gid)), w') ∧
      w'.db = w.db ∧ w'.connects = w.connects ∧
      w'.processed = w.processed + rest.length ∧ file_gid w' = file_gid w := by
  intro rest
  induction rest with
  | nil =>
      intro acc w _
      exact ⟨w, by simp [commenter_save_loop], rfl, rfl, by simp, rfl⟩
  | cons c rest ih =>
      intro acc w hsafe
      have hp : probe env w = false := by
        simpa [probe] using hsafe w.processed (Nat.le_refl _) (by simp)
      have hsafe2 : ∀ k, w.processed + 1 ≤ k → k < w.processed + 1 + rest.length →
          cancel_flag env.cancelAfter k = false := by
        intro k h1 h2
        exact hsafe k (by omega) (by simp only [List.length_cons]; omega)
      obtain ⟨w', hw', hdb, hcon, hproc, hfg⟩ := ih (acc ++ [to_member_create gid c])
        ({ w with processed := w.processed + 1 }) (by simpa using hsafe2)
      refine ⟨w', ?_, by simpa using hdb, by simpa using hcon, ?_, ?_⟩
      · simp only [commenter_save_loop, hp, Bool.false_eq_true, if_false, hw']
        simp
      · simp at hproc
        simp only [List.length_cons]
        omega
      · rw [hfg]
        simp [file_gid]

/-- With the flag due to arrive while the unique commenters are being
converted, the commenter-save loop raises the cancellation error with the
database untouched and the flag observable. -/
theorem commenter_save_loop_cancel (env : Env) (gid c : Nat)
    (h : env.cancelAfter = some c) :
    ∀ (rest : List MemberData) (acc : List GroupMemberCreate) (w : World),
    w.processed ≤ c → c < w.processed + rest.length →
    ∃ w', commenter_save_loop env gid rest acc w = (.error cancelMsg, w') ∧
      w'.db = w.db ∧ w'.connects = w.connects ∧ c ≤ w'.processed ∧
      file_gid w' = file_gid w := by
  intro rest
  induction rest with
  | nil =>
      intro acc w h1 h2
      simp only [List.length_nil, Nat.add_zero] at h2
      omega
  | cons x rest ih =>
      intro acc w h1 h2
      by_cases hc : c ≤ w.processed
      · have hp : probe env w = true := by
          rw [probe_eq_decide h]; simpa using hc
        exact ⟨w, by simp [commenter_save_loop, hp], rfl, rfl, hc, rfl⟩
      · have hp : probe env w = false := by
          rw [probe_eq_decide h]; simpa using Nat.lt_of_not_le hc
        obtain ⟨w', hw', hdb, hcon, hproc, hfg⟩ := ih (acc ++ [to_member_create gid x])
          ({ w with processed := w.processed + 1 })
          (by simpa using Nat.lt_of_not_le hc)
          (by simp only [List.length_cons] at h2 ⊢; simpa using (by omega : c < w.processed + 1 + rest.length))
        refine ⟨w', ?_, by simpa using hdb, by simpa using hcon, hproc, ?_⟩
        · simp [commenter_save_loop, hp, hw']
        · rw [hfg]
          simp [file_gid]

/-! ## Dictionary lemmas -/

theorem mem_dkeys_dupsert {α : Type} (k : Nat) (v : α) (a : Nat) :
    ∀ m : List (Nat × α),
    (a ∈ dkeys (dupsert m k v) ↔ a ∈ dkeys m ∨ a = k) := by
  intro m
  induction m with
  | nil => simp [dupsert, dkeys]
  | cons p rest ih =>
      obtain ⟨k0, v0⟩ := p
      by_cases hk : k0 = k
      · subst hk
        simp [dupsert, dkeys]
        tauto
      · simp only [dupsert, if_neg hk, dkeys, List.map_cons, List.mem_cons]
        simp only [dkeys] at ih
        rw [ih]
        tauto

theorem nodup_dkeys_dupsert {α : Type} (k : Nat) (v : α) :
    ∀ m : List (Nat × α),
    (dkeys m).Nodup → (dkeys (dupsert m k v)).Nodup := by
  intro m
  induction m with
  | nil => simp [dupsert, dkeys]
  | cons p rest ih =>
      obtain ⟨k0, v0⟩ := p
      intro h
      simp only [dkeys, List.map_cons, List.nodup_cons] at h
      by_cases hk : k0 = k
      · subst hk
        have hd : dupsert ((k0, v0) :: rest) k0 v = (k0, v) :: rest := by
          simp [dupsert]
        rw [hd]
        simp only [dkeys, List.map_cons, List.nodup_cons]
        exact ⟨h.1, h.2⟩
      · simp only [dupsert, if_neg hk, dkeys, List.map_cons, List.nodup_cons]
        refine ⟨?_, ih h.2⟩
        intro hmem
        rcases (mem_dkeys_dupsert k v k0 rest).mp hmem with hm | he
        · exact h.1 (by simpa [dkeys] using hm)
        · exact hk he

theorem mem_dkeys_foldl_dupsert (cs : List MemberData) :
    ∀ (acc : List (Nat × MemberData)) (a : Nat),
    (a ∈ dkeys (cs.foldl (fun m c => dupsert m c.userId c) acc) ↔
      a ∈ dkeys acc ∨ a ∈ cs.map (·.userId)) := by
  induction cs with
  | nil => simp
  | cons c rest ih =>
      intro acc a
      simp only [List.foldl_cons, List.map_cons, List.mem_cons]
      rw [ih]
      rw [mem_dkeys_dupsert]
      tauto

theorem nodup_dkeys_foldl_dupsert (cs : List MemberData) :
    ∀ acc : List (Nat × MemberData),
    (dkeys acc).Nodup →
    (dkeys (cs.foldl (fun m c => dupsert m c.userId c) acc)).Nodup := by
  induction cs with
  | nil => simpa
  | cons c rest ih =>
      intro acc h
      simp only [List.foldl_cons]
      exact ih _ (nodup_dkeys_dupsert _ _ _ h)

/-- Every value of the dict is stored under its own user id. -/
def id_keyed (m : List (Nat × MemberData)) : Prop :=
  ∀ p ∈ m, p.2.userId = p.1

theorem id_keyed_nil : id_keyed [] := by intro p hp; cases hp

theorem id_keyed_dupsert (k : Nat) (v : MemberData) (hv : v.userId = k) :
    ∀ m, id_keyed m → id_keyed (dupsert m k v) := by
  intro m
  induction m with
  | nil =>
      intro _ p hp
      simp only [dupsert, List.mem_singleton] at hp
      subst hp
      exact hv
  | cons q rest ih =>
      obtain ⟨k0, v0⟩ := q
      intro h p hp
      by_cases hk : k0 = k
      · simp only [dupsert, if_pos hk, List.mem_cons] at hp
        rcases hp with rfl | hp
        · exact hv
        · exact h p (List.mem_cons_of_mem _ hp)
      · simp only [dupsert, if_neg hk, List.mem_cons] at hp
        rcases hp with rfl | hp
        · exact h (k0, v0) (List.mem_cons_self _ _)
        · exact ih (fun q hq => h q (List.mem_cons_of_mem _ hq)) p hp

theorem id_keyed_foldl (cs : List MemberData) :
    ∀ acc, id_keyed acc →
    id_keyed (cs.foldl (fun m c => dupsert m c.userId c) acc) := by
  induction cs with
  | nil => simpa
  | cons c rest ih =>
      intro acc h
      simp only [List.foldl_cons]
      exact ih _ (id_keyed_dupsert _ _ rfl _ h)

theorem dvalues_ids_of_id_keyed :
    ∀ m : List (Nat × MemberData), id_keyed m →
    (dvalues m).map (·.userId) = dkeys m := by
  intro m
  induction m with
  | nil => intro _; rfl
  | cons q rest ih =>
      obtain ⟨k0, v0⟩ := q
      intro h
      simp only [dvalues, dkeys, List.map_cons]
      rw [show v0.userId = k0 from h (k0, v0) (List.mem_cons_self _ _)]
      simp only [dvalues, dkeys] at ih
      rw [ih (fun q hq => h q (List.mem_cons_of_mem _ hq))]

theorem nodup_dkeys_comment_step (msg : MsgInfo) :
    ∀ users, (dkeys users).Nodup → (dkeys (comment_step users msg)).Nodup := by
  intro users h
  unfold comment_step
  cases msg.senderId with
  | none => exact h
  | some sid =>
      by_cases hc : dcontains users sid
      · simpa [hc]
      · simp only [hc, Bool.false_eq_true, if_false]
        cases msg.sender with
        | none => exact h
        | some s =>
            by_cases hs : s.isUser
            · simpa [hs] using nodup_dkeys_dupsert s.id (mk_comment_user s) users h
            · simpa [hs]

theorem id_keyed_comment_step (msg : MsgInfo) :
    ∀ users, id_keyed users → id_keyed (comment_step users msg) := by
  intro users h
  unfold comment_step
  cases msg.senderId with
  | none => exact h
  | some sid =>
      by_cases hc : dcontains users sid
      · simpa [hc]
      · simp only [hc, Bool.false_eq_true, if_false]
        cases msg.sender with
        | none => exact h
        | some s =>
            by_cases hs : s.isUser
            · simpa [hs] using id_keyed_dupsert s.id (mk_comment_user s) rfl users h
            · simpa [hs]

theorem comment_users_map_nodup (msgs : List MsgInfo) :
    ∀ users, (dkeys users).Nodup →
    (dkeys (comment_users_map msgs users)).Nodup := by
  induction msgs with
  | nil => simpa [comment_users_map]
  | cons msg rest ih =>
      intro users h
      simp only [comment_users_map]
      exact ih _ (nodup_dkeys_comment_step msg users h)

theorem comment_users_map_id_keyed (msgs : List MsgInfo) :
    ∀ users, id_keyed users → id_keyed (comment_users_map msgs users) := by
  induction msgs with
  | nil => simpa [comment_users_map]
  | cons msg rest ih =>
      intro users h
      simp only [comment_users_map]
      exact ih _ (id_keyed_comment_step msg users h)

theorem collect_commenters_nodup (env : Env) (posts : List Nat) :
    ∀ acc, (dkeys acc).Nodup →
    (dkeys (collect_commenters env posts acc)).Nodup := by
  induction posts with
  | nil => simpa [collect_commenters]
  | cons pid rest ih =>
      intro acc h
      simp only [collect_commenters]
      cases hgc : get_commenters_info env pid with
      | error e => exact ih _ h
      | ok cs => exact ih _ (nodup_dkeys_foldl_dupsert cs acc h)

theorem mem_dkeys_collect_commenters (env : Env) (posts : List Nat) :
    ∀ (acc : List (Nat × MemberData)) (a : Nat),
    (a ∈ dkeys (collect_commenters env posts acc) ↔
      a ∈ dkeys acc ∨ ∃ pid ∈ posts, ∃ cs,
        get_commenters_info env pid = .ok cs ∧ a ∈ cs.map (·.userId)) := by
  induction posts with
  | nil => simp [collect_commenters]
  | cons pid rest ih =>
      intro acc a
      simp only [collect_commenters]
      cases hgc : get_commenters_info env pid with
      | error e =>
          rw [ih]
          constructor
          · rintro (h | ⟨q, hq, cs, hcs, hm⟩)
            · exact Or.inl h
            · exact Or.inr ⟨q, List.mem_cons_of_mem _ hq, cs, hcs, hm⟩
          · rintro (h | ⟨q, hq, cs, hcs, hm⟩)
            · exact Or.inl h
            · rcases List.mem_cons.mp hq with rfl | hq
              · rw [hgc] at hcs; cases hcs
              · exact Or.inr ⟨q, hq, cs, hcs, hm⟩
      | ok cs =>
          rw [ih]
          rw [mem_dkeys_foldl_dupsert]
          constructor
          · rintro ((h | hm) | ⟨q, hq, ds, hds, hm⟩)
            · exact Or.inl h
            · exact Or.inr ⟨pid, List.mem_cons_self _ _, cs, hgc, hm⟩
            · exact Or.inr ⟨q, List.mem_cons_of_mem _ hq, ds, hds, hm⟩
          · rintro (h | ⟨q, hq, ds, hds, hm⟩)
            · exact Or.inl (Or.inl h)
            · rcases List.mem_cons.mp hq with rfl | hq
              · rw [hgc] at hds
                cases hds
                exact Or.inl (Or.inr hm)
              · exact Or.inr ⟨q, hq, ds, hds, hm⟩

theorem collect_commenters_id_keyed (env : Env) (posts : List Nat) :
    ∀ acc, id_keyed acc → id_keyed (collect_commenters env posts acc) := by
  induction posts with
  | nil => simpa [collect_commenters]
  | cons pid rest ih =>
      intro acc h
      simp only [collect_commenters]
      cases hgc : get_commenters_info env pid with
      | error e => exact ih _ h
      | ok cs => exact ih _ (id_keyed_foldl cs acc h)

/-! ## Credential rotation lemmas -/

/-- The sequence of tokens handed out by `n` successive draws. -/
def draw_seq : TokenState → Nat → List String
  | _, 0 => []
  | ts, n + 1 =>
      let d := next_token_total ts
      d.1 :: draw_seq d.2 n

theorem draw_seq_eq_map (n : Nat) :
    ∀ ts : TokenState, ts.idx < ts.tokens.length →
    draw_seq ts n = (List.range n).map
      (fun j => ts.tokens.getD ((ts.idx + j) % ts.tokens.length) "") := by
  induction n with
  | zero => intro ts _; simp [draw_seq]
  | succ n ih =>
      intro ts h
      have hpos : 0 < ts.tokens.length := Nat.lt_of_le_of_lt (Nat.zero_le _) h
      have h2 : ({ ts with idx := (ts.idx + 1) % ts.tokens.length } : TokenState).idx
          < ({ ts with idx := (ts.idx + 1) % ts.tokens.length } : TokenState).tokens.length := by
        simpa using Nat.mod_lt _ hpos
      have hih := ih _ h2
      simp only [draw_seq, next_token_total, hih]
      rw [List.range_succ_eq_map]
      simp only [List.map_cons, List.map_map]
      refine congrArg₂ List.cons ?_ ?_
      · rw [Nat.add_zero, Nat.mod_eq_of_lt h]
      · apply List.map_congr_left
        intro j _
        simp only [Function.comp_apply]
        rw [Nat.mod_add_mod]
        congr 2
        omega

theorem draw_seq_length (n : Nat) : ∀ ts : TokenState, (draw_seq ts n).length = n := by
  induction n with
  | zero => intro ts; rfl
  | succ n ih => intro ts; simp [draw_seq, ih]

/-- A full sweep of draws hands out the pool rotated at the cursor: a
round-robin traversal that wraps at the end of the list. -/
theorem draw_seq_rotate (ts : TokenState) (h : ts.idx < ts.tokens.length) :
    draw_seq ts ts.tokens.length = ts.tokens.rotate ts.idx := by
  have hpos : 0 < ts.tokens.length := Nat.lt_of_le_of_lt (Nat.zero_le _) h
  apply List.ext_getElem
  · simp [draw_seq_length, List.length_rotate]
  · intro j h1 h2
    have hj : j < ts.tokens.length := by
      simpa [draw_seq_length] using h1
    have heq := draw_seq_eq_map ts.tokens.length ts h
    have hstep : (draw_seq ts ts.tokens.length)[j]
        = ts.tokens.getD ((ts.idx + j) % ts.tokens.length) "" := by
      simp only [heq]
      rw [List.getElem_map, List.getElem_range]
    rw [hstep, List.getElem_rotate]
    rw [List.getD_eq_getElem _ _ (Nat.mod_lt _ hpos)]
    congr 2
    rw [Nat.add_comm]

/-- One rate-limited attempt: record the error, rotate to the next bot
token, and retry with one unit of fuel less. -/
theorem simple_retry_loop_flood_step (attempt : Nat → AttemptResult)
    (fuel i : Nat) (tok : String) (ts : TokenState)
    (lastErr : Option AttemptResult) (used : List String) (s : Nat)
    (h : attempt i = .floodWait s) :
    simple_retry_loop attempt (fuel + 1) tok ts lastErr used i
      = simple_retry_loop attempt fuel (next_token_total ts).1
          (next_token_total ts).2 (some (.floodWait s)) (used ++ [tok]) (i + 1) := by
  conv_lhs => rw [simple_retry_loop]
  rw [h]

/-- When every attempt hits a rate limit, the retry loop consumes its whole
fuel, rotating to a fresh token each time, and surfaces the LAST rate-limit
error as a 429 carrying its advertised wait time. -/
theorem simple_retry_loop_all_flood (attempt : Nat → AttemptResult)
    (secs : Nat → Nat) :
    ∀ (fuel i : Nat) (tok : String) (ts : TokenState)
      (lastErr : Option AttemptResult) (used : List String),
    (∀ j, j < fuel + 1 → attempt (i + j) = .floodWait (secs (i + j))) →
    simple_retry_loop attempt (fuel + 1) tok ts lastErr used i
      = (.http 429 ("Rate limit exceeded. Please try again in "
          ++ toString (secs (i + fuel)) ++ " seconds"),
         used ++ tok :: draw_seq ts fuel) := by
  intro fuel
  induction fuel with
  | zero =>
      intro i tok ts lastErr used hf
      have h0 := hf 0 (by omega)
      simp only [Nat.add_zero] at h0
      simp [simple_retry_loop, h0, finish_simple, draw_seq]
  | succ fuel ih =>
      intro i tok ts lastErr used hf
      have h0 := hf 0 (by omega)
      simp only [Nat.add_zero] at h0
      have hf2 : ∀ j, j < fuel + 1 → attempt (i + 1 + j)
          = .floodWait (secs (i + 1 + j)) := by
        intro j hj
        have := hf (j + 1) (by omega)
        simpa [Nat.add_assoc, Nat.add_comm, Nat.add_left_comm] using this
      have hrec := ih (i + 1) (next_token_total ts).1 (next_token_total ts).2
        (some (.floodWait (secs i))) (used ++ [tok]) hf2
      rw [simple_retry_loop_flood_step attempt (fuel + 1) i tok ts lastErr used
        (secs i) h0, hrec]
      refine congrArg₂ Prod.mk ?_ ?_
      · have heq : i + 1 + fuel = i + (fuel + 1) := by omega
        rw [heq]
      · simp [draw_seq]

/-- C9: in the bot-token parsing path of `simple_run.py`, a rate-limit error
rotates to the next bot token — round-robin, wrapping at the end of the
list, so a full sweep uses each configured token exactly once — and retries
the whole operation, at most `len(bot_tokens)` attempts in total; when every
token is exhausted the LAST rate-limit error is surfaced (HTTP 429) with its
advertised wait duration, and an empty configured token list is a fatal
configuration error. -/
theorem c9_rate_limit_rotation (tokens : List String) (idx : Nat)
    (attempt : Nat → AttemptResult) (secs : Nat → Nat)
    (hidx : idx < tokens.length)
    (hflood : ∀ i, i < tokens.length → attempt i = .floodWait (secs i)) :
    (simple_parse_group attempt { tokens := tokens, idx := idx }).1
      = .http 429 ("Rate limit exceeded. Please try again in "
          ++ toString (secs (tokens.length - 1)) ++ " seconds") ∧
    (simple_parse_group attempt { tokens := tokens, idx := idx }).2
      = tokens.rotate idx ∧
    (simple_parse_group attempt { tokens := tokens, idx := idx }).2.length
      = tokens.length ∧
    (∀ t, ((simple_parse_group attempt { tokens := tokens, idx := idx }).2).count t
      = tokens.count t) ∧
    get_bot_tokens "" = .error "No bot tokens found in environment variables" ∧
    get_next_bot_token { tokens := [] } = .error "No bot tokens available" := by
  obtain ⟨f, hf⟩ : ∃ f, tokens.length = f + 1 := ⟨tokens.length - 1, by omega⟩
  have hrun : simple_parse_group attempt { tokens := tokens, idx := idx }
      = (.http 429 ("Rate limit exceeded. Please try again in "
          ++ toString (secs (0 + f)) ++ " seconds"),
         [] ++ (next_token_total { tokens := tokens, idx := idx }).1
           :: draw_seq (next_token_total { tokens := tokens, idx := idx }).2 f) := by
    have hstep : simple_parse_group attempt { tokens := tokens, idx := idx }
        = simple_retry_loop attempt (f + 1)
            (next_token_total { tokens := tokens, idx := idx }).1
            (next_token_total { tokens := tokens, idx := idx }).2 none [] 0 := by
      simp only [simple_parse_group, hf]
    rw [hstep]
    exact simple_retry_loop_all_flood attempt secs f 0 _ _ none []
      (fun j hj => by simpa using hflood j (by omega))
  have hdraw : (next_token_total { tokens := tokens, idx := idx }).1
      :: draw_seq (next_token_total { tokens := tokens, idx := idx }).2 f
      = tokens.rotate idx := by
    have : (next_token_total { tokens := tokens, idx := idx }).1
        :: draw_seq (next_token_total { tokens := tokens, idx := idx }).2 f
        = draw_seq { tokens := tokens, idx := idx } (f + 1) := rfl
    rw [this, ← hf]
    exact draw_seq_rotate { tokens := tokens, idx := idx } hidx
  refine ⟨?_, ?_, ?_, ?_, rfl, rfl⟩
  · rw [hrun]
    simp only [hf, Nat.zero_add, Nat.add_sub_cancel]
  · rw [hrun]
    simpa using hdraw
  · rw [hrun]
    simp only [List.nil_append, hdraw, List.length_rotate]
  · intro t
    rw [hrun]
    simp only [List.nil_append, hdraw]
    exact (List.rotate_perm tokens idx).count_eq t

/-- Witness for `c9_rate_limit_rotation`: three tokens, cursor at 1, every
attempt rate-limited with waits 10, 20, 30 seconds. -/
theorem c9_rate_limit_rotation_witness :
    (simple_parse_group
        (fun i => .floodWait ((i + 1) * 10)) { tokens := ["a", "b", "c"], idx := 1 }).1
      = .http 429 "Rate limit exceeded. Please try again in 30 seconds" ∧
    (simple_parse_group
        (fun i => .floodWait ((i + 1) * 10)) { tokens := ["a", "b", "c"], idx := 1 }).2
      = ["b", "c", "a"] := by
  have h := c9_rate_limit_rotation ["a", "b", "c"] 1
    (fun i => .floodWait ((i + 1) * 10)) (fun i => (i + 1) * 10)
    (by norm_num) (fun i _ => rfl)
  refine ⟨?_, ?_⟩
  · simpa using h.1
  · rw [h.2.1]
    rfl

/-- C3 counterexample: at the concrete update sequence
`update("members", 1, 2)` then `update("database", 0, 0)` the supplied total
is 0 yet `phase_progress` remains 50 (the code leaves it unchanged instead
of zeroing it); and the single update `update("members", 3, 2)` yields
`phase_progress = 150`, outside `[0, 100]`. -/
theorem c3_phase_progress_counterexample :
    (update_progress (some (update_progress none "members" 1 2 "x"))
        "database" 0 0 "").phaseProgress ≠ 0 ∧
    ¬ (update_progress none "members" 3 2 "").phaseProgress ≤ 100 := by
  constructor
  · norm_num [update_progress]
  · norm_num [update_progress]

/-- C3 (amended): `update` recomputes `phase_progress = current/total*100`
only when `total > 0` and leaves it unchanged when `total ≤ 0` (so it is 0
after a `total = 0` update only if it already was); the recomputed value
lies in `[0, 100]` exactly when `0 ≤ current ≤ total`. -/
theorem c3_phase_progress_spec (prev : Option ParsingProgress)
    (phase : String) (current total : Int) (message : String) :
    (total ≤ 0 → (update_progress prev phase current total message).phaseProgress
        = (prev.getD {}).phaseProgress) ∧
    (0 < total → (update_progress prev phase current total message).phaseProgress
        = ((current : Rat) / (total : Rat)) * 100) ∧
    (0 < total → 0 ≤ current → current ≤ total →
      0 ≤ (update_progress prev phase current total message).phaseProgress ∧
      (update_progress prev phase current total message).phaseProgress ≤ 100) := by
  have hpos : ∀ h : 0 < total,
      (update_progress prev phase current total message).phaseProgress
        = ((current : Rat) / (total : Rat)) * 100 := by
    intro h
    simp only [update_progress, if_pos h]
  refine ⟨?_, hpos, ?_⟩
  · intro ht
    have h : ¬ (total > 0) := by omega
    simp only [update_progress, if_neg h]
    split <;> split <;> rfl
  · intro ht hc hct
    rw [hpos ht]
    have ht2 : (0 : Rat) < (total : Rat) := by exact_mod_cast ht
    have hc2 : (0 : Rat) ≤ (current : Rat) := by exact_mod_cast hc
    have hct2 : (current : Rat) ≤ (total : Rat) := by exact_mod_cast hct
    constructor
    · exact mul_nonneg (div_nonneg hc2 ht2.le) (by norm_num)
    · have hle1 : (current : Rat) / (total : Rat) ≤ 1 := (div_le_one ht2).mpr hct2
      calc ((current : Rat) / (total : Rat)) * 100 ≤ 1 * 100 :=
            mul_le_mul_of_nonneg_right hle1 (by norm_num)
        _ = 100 := by norm_num

/-- Witness for `c3_phase_progress_spec` at `prev = none`, `current = 1`,
`total = 2` (in range) and a follow-up `total = 0` update (unchanged). -/
theorem c3_phase_progress_spec_witness :
    (update_progress (some (update_progress none "members" 1 2 "x"))
        "database" 0 0 "").phaseProgress
      = ((some (update_progress none "members" 1 2 "x")).getD
          {}).phaseProgress ∧
    0 ≤ (update_progress none "members" 1 2 "x").phaseProgress ∧
    (update_progress none "members" 1 2 "x").phaseProgress ≤ 100 := by
  refine ⟨(c3_phase_progress_spec (some (update_progress none "members" 1 2 "x"))
      "database" 0 0 "").1 (by norm_num), ?_, ?_⟩
  · exact ((c3_phase_progress_spec none "members" 1 2 "x").2.2
      (by norm_num) (by norm_num) (by norm_num)).1
  · exact ((c3_phase_progress_spec none "members" 1 2 "x").2.2
      (by norm_num) (by norm_num) (by norm_num)).2

/-- C8: a channel parse request is accepted exactly when
`0 < post_limit ≤ 100`; a rejected `post_limit` is refused by the request
validator before the handler runs, so no network connection is ever
opened. -/
theorem c8_post_limit_validation (v : Int) (env : Env) (db : Db)
    (userId : Nat) :
    (except_ok (validate_post_limit v) = true ↔ 0 < v ∧ v ≤ 100) ∧
    (v ≤ 0 ∨ 100 < v →
      except_ok (parse_channel_endpoint env db userId v).1 = false ∧
      (parse_channel_endpoint env db userId v).2.connects = 0 ∧
      (parse_channel_endpoint env db userId v).2.db = db) := by
  constructor
  · constructor
    · intro hok
      by_cases h1 : v ≤ 0
      · simp [validate_post_limit, except_ok, h1] at hok
      · by_cases h2 : v > 100
        · simp [validate_post_limit, except_ok, h1, h2] at hok
        · omega
    · rintro ⟨ha, hb⟩
      have h1 : ¬ v ≤ 0 := by omega
      have h2 : ¬ v > 100 := by omega
      simp [validate_post_limit, except_ok, h1, h2]
  · intro h
    rcases h with h | h
    · simp [parse_channel_endpoint, validate_post_limit, h, except_ok]
    · have h1 : ¬ v ≤ 0 := by omega
      simp [parse_channel_endpoint, validate_post_limit, h1, h, except_ok]

/-- Witness for `c8_post_limit_validation`: `post_limit = 0` is rejected
with no connection, `post_limit = 150` likewise, and the boundary values 1
and 100 are accepted. -/
theorem c8_post_limit_validation_witness :
    except_ok (parse_channel_endpoint { } { } 1 0).1 = false ∧
    (parse_channel_endpoint { } { } 1 0).2.connects = 0 ∧
    except_ok (parse_channel_endpoint { } { } 1 150).1 = false ∧
    (parse_channel_endpoint { } { } 1 150).2.connects = 0 ∧
    except_ok (validate_post_limit 1) = true ∧
    except_ok (validate_post_limit 100) = true ∧
    except_ok (validate_post_limit 0) = false := by
  have h0 := (c8_post_limit_validation 0 { } { } 1).2 (Or.inl (by norm_num))
  have h150 := (c8_post_limit_validation 150 { } { } 1).2 (Or.inr (by norm_num))
  have h1 := (c8_post_limit_validation 1 { } { } 1).1.mpr (by norm_num)
  have h100 := (c8_post_limit_validation 100 { } { } 1).1.mpr (by norm_num)
  exact ⟨h0.1, h0.2.1, h150.1, h150.2.1, h1, h100, by decide⟩

/-- C7: during a channel scan a failure while retrieving one post's comments
is caught and skipped — the per-post loop never propagates an exception and
completes with exactly the commenters of the posts that succeeded, merged by
user id with every commenter recorded once. -/
theorem c7_per_post_failures_skipped (env : Env) (postIds : List Nat)
    (w : World) (h : env.cancelAfter = none) :
    (posts_loop env postIds.length postIds 0 [] w).1
      = .ok (collect_commenters env postIds []) ∧
    (posts_loop env postIds.length postIds 0 [] w).2.db = w.db ∧
    (dkeys (collect_commenters env postIds [])).Nodup ∧
    (∀ uid, uid ∈ dkeys (collect_commenters env postIds []) ↔
      ∃ pid ∈ postIds, ∃ cs, get_commenters_info env pid = .ok cs ∧
        uid ∈ cs.map (·.userId)) ∧
    ((dvalues (collect_commenters env postIds [])).map (·.userId)).Nodup := by
  obtain ⟨w', hw', hdb, _, _, _⟩ := posts_loop_complete env postIds.length postIds 0 [] w
    (fun k _ _ => by simp [cancel_flag, h])
  refine ⟨by rw [hw'], by rw [hw']; exact hdb, ?_, ?_, ?_⟩
  · exact collect_commenters_nodup env postIds [] (by simp [dkeys])
  · intro uid
    rw [mem_dkeys_collect_commenters]
    simp [dkeys]
  · rw [dvalues_ids_of_id_keyed _ (collect_commenters_id_keyed env postIds [] id_keyed_nil)]
    exact collect_commenters_nodup env postIds [] (by simp [dkeys])

/-- The concrete channel environment of the C7 witness: three posts, the
middle one failing comment retrieval, the others sharing two commenters. -/
def c7_env : Env :=
  { postsIter := .ok [100, 101, 102],
    postComments := fun pid =>
      if pid = 101 then .error () else .ok [{ id := 21 }, { id := 22 }] }

/-- Witness for `c7_per_post_failures_skipped`: the loop completes despite
the failing post 101, and commenter 21 (under both surviving posts) is
recorded once. -/
theorem c7_per_post_failures_skipped_witness :
    (posts_loop c7_env ([100, 101, 102] : List Nat).length [100, 101, 102]
        0 [] { db := {} }).1
      = .ok (collect_commenters c7_env [100, 101, 102] []) ∧
    (dkeys (collect_commenters c7_env [100, 101, 102] [])).Nodup ∧
    21 ∈ dkeys (collect_commenters c7_env [100, 101, 102] []) := by
  have h := c7_per_post_failures_skipped c7_env [100, 101, 102] { db := {} } rfl
  refine ⟨h.1, h.2.2.1, ?_⟩
  exact (h.2.2.2.1 21).mpr ⟨100, by simp, _, rfl, by decide⟩

/-- C5: without an active session credential both `parse_group` and
`parse_channel` fail immediately with the configuration error (no retry),
no network connection is opened, no Group row is created (the store is
untouched), and the only phases ever recorded are "initialization" and the
terminal "error" marker — none of the pipeline phases (connecting,
validation, info, database, scanning, processing, saving, completed) is
reached. -/
theorem c5_no_session_rejected (env : Env) (db : Db) (userId : Nat)
    (scanComments : Bool) (commentLimit postLimit : Nat)
    (hs : active_session db userId = none)
    (hcA : env.cancelAfter = none) :
    (parse_group env db userId scanComments commentLimit).1
      = .error "Error parsing chat: No active Telegram session found. Please add a session first." ∧
    (parse_group env db userId scanComments commentLimit).2.db = db ∧
    (parse_group env db userId scanComments commentLimit).2.connects = 0 ∧
    (parse_group env db userId scanComments commentLimit).2.phases
      = ["initialization", "error"] ∧
    (parse_channel env db userId postLimit).1
      = .error "No active Telegram session found. Please add a session first." ∧
    (parse_channel env db userId postLimit).2.db = db ∧
    (parse_channel env db userId postLimit).2.connects = 0 ∧
    (parse_channel env db userId postLimit).2.phases
      = ["initialization", "error"] := by
  have hpg : parse_group env db userId scanComments commentLimit
      = parse_group_catch env
          "No active Telegram session found. Please add a session first." none
          (wupdate { db := db } "initialization" 0 0
            "Initializing chat parsing...") := by
    simp only [parse_group, parse_group_wrap, parse_group_body, wupdate_db, hs]
  have hpc : parse_channel env db userId postLimit
      = (match parse_channel_catch env
            "No active Telegram session found. Please add a session first."
            (wupdate { db := db } "initialization" 0 0
              "Initializing channel parsing...") with
        | ((r, w), localGid) => (r, channel_finally env w localGid)) := by
    simp only [parse_channel, parse_channel_wrap, parse_channel_body,
      wupdate_db, hs]
  refine ⟨?_, ?_, ?_, ?_, ?_, ?_, ?_, ?_⟩ <;>
    simp [hpg, hpc, parse_group_catch, parse_channel_catch, channel_finally,
      probe_of_none hcA, apply_reset_now]

/-- Witness for `c5_no_session_rejected`: empty store, default environment,
user 7. -/
theorem c5_no_session_rejected_witness :
    (parse_group { } { } 7 false 100).1
      = .error "Error parsing chat: No active Telegram session found. Please add a session first." ∧
    (parse_group { } { } 7 false 100).2.connects = 0 ∧
    (parse_group { } { } 7 false 100).2.db = ({ } : Db) ∧
    (parse_channel { } { } 7 100).2.phases = ["initialization", "error"] := by
  have h := c5_no_session_rejected { } { } 7 false 100 100 rfl rfl
  exact ⟨h.1, h.2.2.1, h.2.1, h.2.2.2.2.2.2.2⟩

/-- The member row `create_members_bulk` stores for one scanned record of
the fresh group (phone is always `None`: `GroupMemberCreate` has no phone
attribute). -/
def member_row_of (gid : Nat) (m : MemberData) : MemberRow :=
  { groupId := gid, userId := m.userId, username := m.username,
    firstName := m.firstName, lastName := m.lastName, phone := none,
    isBot := m.isBot, isAdmin := m.isAdmin, isPremium := m.isPremium }

/-- The Group row a successful `parse_group` run creates for a resolved
channel-type entity. -/
def group_row_of (db : Db) (ent : EntityInfo) (userId cnt : Nat) : GroupRow :=
  { id := db.nextGroupId, userId := userId, tgGroupId := ent.id,
    groupName := if ent.title ≠ "" then ent.title
      else ("Chat with " ++ (ent.firstName.getD "") ++ " "
        ++ (ent.lastName.getD "")).trim,
    groupUsername := ent.username, memberCount := cnt,
    isPublic := !ent.restricted, isChannel := ent.broadcast }

/-- A full membership scan without cancellation returns every normalized
`TelegramUser` participant, touching only progress state. -/
theorem get_group_members_ok (env : Env) (admins : List Nat) (total : Nat)
    (hadm : env.adminScan = .ok admins) (hsc : env.scanCount = .ok total)
    (hcA : env.cancelAfter = none) (w : World) :
    ∃ w', get_group_members env w = (.ok (scanned_members env admins), w') ∧
      w'.db = w.db ∧ w'.connects = w.connects := by
  obtain ⟨w', hw', hdb, hcon⟩ := member_loop_no_cancel env admins total hcA
    env.participants []
    (wupdate (wupdate (wupdate w "admins" 0 0 "Getting admin list...")
        "admins" 0 0 ("Found " ++ toString admins.length ++ " admins"))
      "members" 0 (total : Int) ("Found " ++ toString total ++ " total members"))
  refine ⟨w', ?_, by simpa using hdb, by simpa using hcon⟩
  simp only [get_group_members, probe_of_none hcA, Bool.false_eq_true, if_false,
    hadm, hsc, hw', List.nil_append, scanned_members]


theorem parse_group_master_step (env : Env) (ent : EntityInfo)
    (commentLimit : Nat) (admins : List Nat) (total : Nat) (db : Db)
    (G : GroupRow) (W : World)
    (hch : ent.isChannelType = true)
    (hadm : env.adminScan = .ok admins)
    (hsc : env.scanCount = .ok total)
    (hcA : env.cancelAfter = none)
    (hWg : W.db.groups = db.groups ++ [G])
    (hWm : W.db.members = db.members)
    (hWs : W.db.sessions = db.sessions)
    (hWn : W.db.nextGroupId = db.nextGroupId + 1)
    (hGid : G.id = db.nextGroupId) :
    ∃ w, parse_group_wrap env
        (parse_group_scan_save env ent G false commentLimit W)
        = (.ok G, w) ∧
      w.db.groups = db.groups ++ [G] ∧
      w.db.members = db.members
        ++ (scanned_members env admins).map (member_row_of db.nextGroupId) ∧
      w.db.sessions = db.sessions ∧
      w.db.nextGroupId = db.nextGroupId + 1 ∧
      w.file.map (·.currentPhase) = some "completed" := by
  obtain ⟨w1, hw1, hdb1, hcon1⟩ := get_group_members_ok env admins total hadm hsc hcA
    (wupdate W "scanning" 0 0 "Starting member scanning...")
  obtain ⟨w2, hw2, hdb2, hcon2⟩ := processing_loop_ok env G.id
    (scanned_members env admins).length hcA (scanned_members env admins) 0 []
    (wupdate w1 "processing" 0 0 "Processing member data...")
  simp only [parse_group_scan_save, Bool.false_eq_true, if_false, hch, if_true,
    hw1, probe_of_none hcA, hw2, List.nil_append]
  by_cases hobj : List.map (to_member_create G.id) (scanned_members env admins) = []
  · have hsm : scanned_members env admins = [] := by
      simpa using congrArg List.length hobj
    refine ⟨_, rfl, ?_, ?_, ?_, ?_, ?_⟩ <;>
      simp [hobj, hsm, hdb2, hdb1, hWg, hWm, hWs, hWn]
  · refine ⟨_, rfl, ?_, ?_, ?_, ?_, ?_⟩
    · simp only [if_pos hobj, wupdate_db]
      simp [create_members_bulk, hdb2, hdb1, hWg]
    · simp only [if_pos hobj, wupdate_db]
      simp only [create_members_bulk, wupdate_db]
      rw [List.map_map]
      have hmm : w2.db.members = db.members := by
        rw [hdb2]; simp [hdb1, hWm]
      rw [hmm, hGid]
      rfl
    · simp only [if_pos hobj, wupdate_db]
      simp [create_members_bulk, hdb2, hdb1, hWs]
    · simp only [if_pos hobj, wupdate_db]
      simp [create_members_bulk, hdb2, hdb1, hWn]
    · simp

/-- A fully successful member-mode `parse_group` run: the Group row is
created (nothing deleted), every scanned member is persisted against it in
scan order, the rest of the store is untouched, and the tracker ends in the
terminal "completed" phase — and is left there, `parse_group` never resets
the file. -/
theorem parse_group_members_success (env : Env) (db : Db) (userId : Nat)
    (commentLimit : Nat) (s : SessionRow) (ent : EntityInfo) (cnt : Nat)
    (admins : List Nat) (total : Nat)
    (hs : active_session db userId = some s)
    (hconn : env.connectOk = true)
    (hres : env.resolved = some ent)
    (hch : ent.isChannelType = true)
    (hfi : env.fullInfoCount = .ok cnt)
    (hadm : env.adminScan = .ok admins)
    (hsc : env.scanCount = .ok total)
    (hcA : env.cancelAfter = none) :
    ∃ w, parse_group env db userId false commentLimit
        = (.ok (group_row_of db ent userId cnt), w) ∧
      w.db.groups = db.groups ++ [group_row_of db ent userId cnt] ∧
      w.db.members = db.members
        ++ (scanned_members env admins).map (member_row_of db.nextGroupId) ∧
      w.db.sessions = db.sessions ∧
      w.db.nextGroupId = db.nextGroupId + 1 ∧
      (w.file.map (·.currentPhase)) = some "completed" := by
  simp only [parse_group, parse_group_body, wupdate_db, hs, hconn,
    Bool.not_true, Bool.false_eq_true, if_false, probe_of_none hcA, hres, hch,
    if_true, hfi, create_group]
  exact parse_group_master_step env ent commentLimit admins total db _ _
    hch hadm hsc hcA rfl rfl rfl rfl rfl

/-- A failing message iteration in `_get_comment_users` is swallowed: the
phase is set to "error" and the scanner reports an EMPTY user list as a
normal result. -/
theorem get_comment_users_err (env : Env) (limit : Nat) (e : String)
    (hcm : env.msgIter = .error e) (w : World) :
    get_comment_users env limit w
      = (.ok [], wupdate (wupdate w "comments" 0 0 "Starting comment analysis...")
          "error" 0 0 ("Error scanning comments: " ++ e)) := by
  simp [get_comment_users, hcm]

/-- A comment scan without cancellation returns the deduplicated senders of
the iterated messages, touching only progress state. -/
theorem get_comment_users_ok (env : Env) (limit : Nat) (msgs : List MsgInfo)
    (hcm : env.msgIter = .ok msgs) (hcA : env.cancelAfter = none) (w : World) :
    ∃ w', get_comment_users env limit w
        = (.ok (dvalues (comment_users_map msgs [])), w') ∧
      w'.db = w.db ∧ w'.connects = w.connects := by
  obtain ⟨w', hw', hdb, hcon⟩ := comment_loop_ok env limit hcA msgs []
    (wupdate w "comments" 0 0 "Starting comment analysis...")
  refine ⟨wupdate w' "comments" ((limit : Nat) : Int) ((limit : Nat) : Int)
    ("Found " ++ toString (dkeys (comment_users_map msgs [])).length
      ++ " unique users"), ?_, ?_, ?_⟩
  · simp only [get_comment_users, hcm, hw']
  · simpa using hdb
  · simpa using hcon

/-- Common tail of a successful comment-mode `parse_group` run, for any
scanner outcome `ms` that leaves the database alone. -/
theorem parse_group_comment_step (env : Env) (ent : EntityInfo)
    (commentLimit : Nat) (db : Db) (G : GroupRow) (W : World)
    (ms : List MemberData)
    (hcA : env.cancelAfter = none)
    (hgc : ∀ w : World, ∃ w', get_comment_users env commentLimit w
        = (.ok ms, w') ∧ w'.db = w.db ∧ w'.connects = w.connects)
    (hWg : W.db.groups = db.groups ++ [G])
    (hWm : W.db.members = db.members)
    (hWs : W.db.sessions = db.sessions)
    (hWn : W.db.nextGroupId = db.nextGroupId + 1)
    (hGid : G.id = db.nextGroupId) :
    ∃ w, parse_group_wrap env
        (parse_group_scan_save env ent G true commentLimit W)
        = (.ok G, w) ∧
      w.db.groups = db.groups ++ [G] ∧
      w.db.members = db.members ++ ms.map (member_row_of db.nextGroupId) ∧
      w.db.sessions = db.sessions ∧
      w.db.nextGroupId = db.nextGroupId + 1 ∧
      w.file.map (·.currentPhase) = some "completed" := by
  obtain ⟨w1, hw1, hdb1, hcon1⟩ := hgc
    (wupdate W "scanning" 0 0 "Starting message scanning...")
  obtain ⟨w2, hw2, hdb2, hcon2⟩ := processing_loop_ok env G.id
    ms.length hcA ms 0 []
    (wupdate w1 "processing" 0 0 "Processing member data...")
  simp only [parse_group_scan_save, if_true, hw1, probe_of_none hcA,
    Bool.false_eq_true, if_false, hw2, List.nil_append]
  by_cases hobj : List.map (to_member_create G.id) ms = []
  · have hsm : ms = [] := by
      simpa using congrArg List.length hobj
    refine ⟨_, rfl, ?_, ?_, ?_, ?_, ?_⟩ <;>
      simp [hobj, hsm, hdb2, hdb1, hWg, hWm, hWs, hWn]
  · refine ⟨_, rfl, ?_, ?_, ?_, ?_, ?_⟩
    · simp only [if_pos hobj, wupdate_db]
      simp [create_members_bulk, hdb2, hdb1, hWg]
    · simp only [if_pos hobj, wupdate_db]
      simp only [create_members_bulk, wupdate_db]
      rw [List.map_map]
      have hmm : w2.db.members = db.members := by
        rw [hdb2]; simp [hdb1, hWm]
      rw [hmm, hGid]
      rfl
    · simp only [if_pos hobj, wupdate_db]
      simp [create_members_bulk, hdb2, hdb1, hWs]
    · simp only [if_pos hobj, wupdate_db]
      simp [create_members_bulk, hdb2, hdb1, hWn]
    · simp

/-- A fully successful comment-mode `parse_group` run persists exactly the
deduplicated senders of the scanned messages. -/
theorem parse_group_comments_success (env : Env) (db : Db) (userId : Nat)
    (commentLimit : Nat) (s : SessionRow) (ent : EntityInfo) (cnt : Nat)
    (msgs : List MsgInfo)
    (hs : active_session db userId = some s)
    (hconn : env.connectOk = true)
    (hres : env.resolved = some ent)
    (hch : ent.isChannelType = true)
    (hfi : env.fullInfoCount = .ok cnt)
    (hcm : env.msgIter = .ok msgs)
    (hcA : env.cancelAfter = none) :
    ∃ w, parse_group env db userId true commentLimit
        = (.ok (group_row_of db ent userId cnt), w) ∧
      w.db.groups = db.groups ++ [group_row_of db ent userId cnt] ∧
      w.db.members = db.members
        ++ (dvalues (comment_users_map msgs [])).map (member_row_of db.nextGroupId) ∧
      w.db.sessions = db.sessions ∧
      w.db.nextGroupId = db.nextGroupId + 1 ∧
      (w.file.map (·.currentPhase)) = some "completed" := by
  simp only [parse_group, parse_group_body, wupdate_db, hs, hconn,
    Bool.not_true, Bool.false_eq_true, if_false, probe_of_none hcA, hres, hch,
    if_true, hfi, create_group]
  exact parse_group_comment_step env ent commentLimit db _ _ _
    hcA (get_comment_users_ok env commentLimit msgs hcm hcA)
    rfl rfl rfl rfl rfl

/-- C10-shaped run: the comment scan fails with a generic error, the
scanner swallows it and yields no members, and `parse_group` still reaches
"completed" returning the Group with zero members persisted. -/
theorem parse_group_comments_error_run (env : Env) (db : Db) (userId : Nat)
    (commentLimit : Nat) (s : SessionRow) (ent : EntityInfo) (cnt : Nat)
    (e : String)
    (hs : active_session db userId = some s)
    (hconn : env.connectOk = true)
    (hres : env.resolved = some ent)
    (hch : ent.isChannelType = true)
    (hfi : env.fullInfoCount = .ok cnt)
    (hcm : env.msgIter = .error e)
    (hcA : env.cancelAfter = none) :
    ∃ w, parse_group env db userId true commentLimit
        = (.ok (group_row_of db ent userId cnt), w) ∧
      w.db.groups = db.groups ++ [group_row_of db ent userId cnt] ∧
      w.db.members = db.members
        ++ (([] : List MemberData)).map (member_row_of db.nextGroupId) ∧
      w.db.sessions = db.sessions ∧
      w.db.nextGroupId = db.nextGroupId + 1 ∧
      (w.file.map (·.currentPhase)) = some "completed" := by
  have hgc : ∀ w : World, ∃ w', get_comment_users env commentLimit w
      = (.ok [], w') ∧ w'.db = w.db ∧ w'.connects = w.connects := by
    intro w
    exact ⟨_, get_comment_users_err env commentLimit e hcm w, by simp, by simp⟩
  simp only [parse_group, parse_group_body, wupdate_db, hs, hconn,
    Bool.not_true, Bool.false_eq_true, if_false, probe_of_none hcA, hres, hch,
    if_true, hfi, create_group]
  exact parse_group_comment_step env ent commentLimit db _ _ []
    hcA hgc rfl rfl rfl rfl rfl

/-- A full membership scan interrupted by the flag raises the cancellation
error without touching the database; afterwards the flag is observable. -/
theorem get_group_members_cancel (env : Env) (admins : List Nat)
    (total n : Nat)
    (hadm : env.adminScan = .ok admins) (hsc : env.scanCount = .ok total)
    (hcA : env.cancelAfter = some n) (w : World)
    (hlt : w.processed < n)
    (hle : n ≤ w.processed + (env.participants.filter (·.isUser)).length) :
    ∃ w', get_group_members env w = (.error cancelMsg, w') ∧
      w'.db = w.db ∧ n ≤ w'.processed ∧ w'.connects = w.connects := by
  have hp : probe env w = false := by
    rw [probe_eq_decide hcA]; simpa using Nat.not_le.mpr hlt
  obtain ⟨w', hw', hdb, hcon, hproc⟩ := member_loop_cancel env admins total n hcA
    env.participants []
    (wupdate (wupdate (wupdate w "admins" 0 0 "Getting admin list...")
        "admins" 0 0 ("Found " ++ toString admins.length ++ " admins"))
      "members" 0 (total : Int) ("Found " ++ toString total ++ " total members"))
    (by simpa using hlt) (by simpa using hle)
  refine ⟨w', ?_, by simpa using hdb, hproc, by simpa using hcon⟩
  simp only [get_group_members, probe_wupdate, hp, Bool.false_eq_true, if_false,
    hadm, hsc, hw']

/-- Deleting a Group id no row references is a no-op. -/
theorem delete_group_no_refs (db : Db) (gid : Nat)
    (hg : ∀ gr ∈ db.groups, gr.id ≠ gid)
    (hm : ∀ m ∈ db.members, m.groupId ≠ gid) :
    delete_group db gid = db := by
  simp only [delete_group, delete_group_members]
  have h1 : List.filter (fun g => !decide (g.id = gid)) db.groups = db.groups :=
    List.filter_eq_self.mpr (fun g hgm => by simpa using hg g hgm)
  have h2 : List.filter (fun m => !decide (m.groupId = gid)) db.members
      = db.members :=
    List.filter_eq_self.mpr (fun m hmm => by simpa using hm m hmm)
  simp [h1, h2]

/-- Deleting the just-created Group restores the original tables (only the
autoincrement counter keeps its advance). -/
theorem delete_group_created (db : Db) (G : GroupRow)
    (hg : ∀ gr ∈ db.groups, gr.id ≠ G.id)
    (hm : ∀ m ∈ db.members, m.groupId ≠ G.id) :
    delete_group { db with
        groups := db.groups ++ [G],
        nextGroupId := db.nextGroupId + 1 } G.id
      = { db with nextGroupId := db.nextGroupId + 1 } := by
  simp only [delete_group, delete_group_members, List.filter_append]
  have h1 : List.filter (fun g => !decide (g.id = G.id)) db.groups = db.groups :=
    List.filter_eq_self.mpr (fun g hgm => by simpa using hg g hgm)
  have h2 : List.filter (fun m => !decide (m.groupId = G.id)) db.members
      = db.members :=
    List.filter_eq_self.mpr (fun m hmm => by simpa using hm m hmm)
  have h3 : List.filter (fun g => !decide (g.id = G.id)) [G] = [] := by
    simp [List.filter]
  simp [h1, h2, h3]

theorem parse_group_cancel_step (env : Env) (ent : EntityInfo)
    (commentLimit : Nat) (admins : List Nat) (total : Nat) (db : Db)
    (G : GroupRow) (n : Nat) (W : World)
    (hch : ent.isChannelType = true)
    (hadm : env.adminScan = .ok admins)
    (hsc : env.scanCount = .ok total)
    (hcA : env.cancelAfter = some n)
    (hlt : W.processed < n)
    (hle : n ≤ W.processed + (env.participants.filter (·.isUser)).length)
    (hWdb : W.db = { db with
      groups := db.groups ++ [G],
      nextGroupId := db.nextGroupId + 1 })
    (hg : ∀ gr ∈ db.groups, gr.id ≠ G.id)
    (hm : ∀ m ∈ db.members, m.groupId ≠ G.id) :
    ∃ w, parse_group_wrap env
        (parse_group_scan_save env ent G false commentLimit W)
        = (.error ("Error parsing chat: " ++ cancelMsg), w) ∧
      w.db = { db with nextGroupId := db.nextGroupId + 1 } ∧
      w.file.map (·.currentPhase) = some "cancelled" := by
  obtain ⟨w1, hw1, hdb1, hproc1, hcon1⟩ := get_group_members_cancel env admins
    total n hadm hsc hcA
    (wupdate W "scanning" 0 0 "Starting member scanning...")
    (by simpa using hlt) (by simpa using hle)
  have hp1 : probe env w1 = true := by
    rw [probe_eq_decide hcA]; simpa using hproc1
  have hdel1 : delete_group w1.db G.id
      = { db with nextGroupId := db.nextGroupId + 1 } := by
    rw [hdb1]
    simp only [wupdate_db, hWdb]
    exact delete_group_created db G hg hm
  have hdel2 : delete_group ({ db with
      nextGroupId := db.nextGroupId + 1 } : Db) G.id
      = { db with nextGroupId := db.nextGroupId + 1 } :=
    delete_group_no_refs _ _ (fun gr hgr => hg gr (by simpa using hgr))
      (fun m hmm => hm m (by simpa using hmm))
  simp only [parse_group_scan_save, Bool.false_eq_true, if_false, hch, if_true,
    hw1, parse_group_inner_catch, hp1, parse_group_wrap, parse_group_catch,
    hdel1, probe, cancel_flag, hcA]
  simp only [show (decide (n ≤ w1.processed)) = true by simpa using hproc1,
    if_true, hdel2]
  refine ⟨_, rfl, by simp, by simp⟩

/-- A member-mode `parse_group` run cancelled mid-scan (the flag arrives
after `0 < n ≤ M` members have been processed): the run raises the
cancellation HTTP error, the just-created Group and all its members are
deleted — the tables are exactly as before the run — and the tracker shows
the terminal "cancelled" phase. -/
theorem parse_group_cancel_run (env : Env) (db : Db) (userId : Nat)
    (commentLimit : Nat) (s : SessionRow) (ent : EntityInfo) (cnt : Nat)
    (admins : List Nat) (total n : Nat)
    (hs : active_session db userId = some s)
    (hconn : env.connectOk = true)
    (hres : env.resolved = some ent)
    (hch : ent.isChannelType = true)
    (hfi : env.fullInfoCount = .ok cnt)
    (hadm : env.adminScan = .ok admins)
    (hsc : env.scanCount = .ok total)
    (hcA : env.cancelAfter = some n)
    (hn : 0 < n)
    (hnM : n ≤ (env.participants.filter (·.isUser)).length)
    (hwf : Db.WF db) :
    ∃ w, parse_group env db userId false commentLimit
        = (.error ("Error parsing chat: " ++ cancelMsg), w) ∧
      w.db = { db with nextGroupId := db.nextGroupId + 1 } ∧
      w.file.map (·.currentPhase) = some "cancelled" := by
  have hdec : (decide (n ≤ 0)) = false := by
    simp
    omega
  simp only [parse_group, parse_group_body, wupdate_db, hs, hconn,
    Bool.not_true, Bool.false_eq_true, if_false, probe, cancel_flag, hcA,
    wupdate_processed, hdec, hres, hch, if_true, hfi, create_group]
  exact parse_group_cancel_step env ent commentLimit admins total db _ n _
    hch hadm hsc hcA (by simpa using hn) (by simpa using hnM) rfl
    (fun gr hgr => by simpa using Nat.ne_of_lt (hwf.1 gr hgr))
    (fun m hmm => by simpa using Nat.ne_of_lt (hwf.2 m hmm))

/-- Looking up the just-created Group returns it (no earlier row shares its
id). -/
theorem get_group_by_id_created (db : Db) (G : GroupRow) (D : Db)
    (hD : D.groups = db.groups ++ [G])
    (hg : ∀ gr ∈ db.groups, gr.id ≠ G.id) :
    get_group_by_id D G.id = some G := by
  simp only [get_group_by_id, hD, List.filter_append]
  have h1 : List.filter (fun g => g.id == G.id) db.groups = [] :=
    List.filter_eq_nil_iff.mpr (fun g hgm => by simpa using hg g hgm)
  have h2 : List.filter (fun g => g.id == G.id) [G] = [G] := by
    simp [List.filter]
  simp [h1, h2]

/-- A record in a non-"cancelled" phase is deleted on the spot by
`_reset_progress`. -/
theorem apply_reset_now_ne (p : ParsingProgress)
    (h : p.currentPhase ≠ "cancelled") : apply_reset_now (some p) = none := by
  simp [apply_reset_now, h]

/-- Successful tail of a `parse_channel` run: the unique commenters of the
surviving posts are persisted against the fresh Group, the terminal
"completed" phase is recorded, and the `finally` reset deletes the progress
record before the call returns. -/
theorem parse_channel_ok_step (env : Env) (postLimit : Nat) (db : Db)
    (G : GroupRow) (W : World) (postIds : List Nat)
    (hposts : env.postsIter = .ok postIds)
    (hcA : env.cancelAfter = none)
    (hWdb : W.db = { db with
      groups := db.groups ++ [G],
      nextGroupId := db.nextGroupId + 1 })
    (hg : ∀ gr ∈ db.groups, gr.id ≠ G.id) :
    ∃ w, parse_channel_wrap env (parse_channel_scan_save env G postLimit W)
        = (.ok (some G), w) ∧
      w.db.groups = db.groups ++ [G] ∧
      w.db.members = db.members
        ++ (dvalues (collect_commenters env postIds [])).map (member_row_of G.id) ∧
      w.db.sessions = db.sessions ∧
      w.db.nextGroupId = db.nextGroupId + 1 ∧
      w.file = none ∧
      "completed" ∈ w.phases := by
  have hflag : ∀ k, cancel_flag env.cancelAfter k = false := by
    intro k; simp [cancel_flag, hcA]
  obtain ⟨w1, hw1, hdb1, hcon1, hproc1, hfg1⟩ := posts_loop_complete env
    postIds.length postIds 0 []
    (wupdate (wupdate W "scanning" 0 0
        ("Getting channel posts (limit: " ++ toString postLimit ++ ")..."))
      "scanning" 0 0 ("Found " ++ toString postIds.length ++ " posts"))
    (fun k _ _ => hflag k)
  obtain ⟨w2, hw2, hdb2, hcon2, hproc2, hfg2⟩ := commenter_save_loop_complete
    env G.id (dvalues (collect_commenters env postIds [])) []
    (wupdate w1 "saving" 0 0
      ("Saving " ++ toString (dkeys (collect_commenters env postIds [])).length
        ++ " unique commenters..."))
    (fun k _ _ => hflag k)
  have hafter : ∀ w : World, after_channel_inner env G w
      = (.ok (get_group_by_id w.db G.id), w, (w.file.getD {}).currentGroupId) := by
    intro w
    simp [after_channel_inner, probe_of_none hcA]
  have hfin : ∀ (w : World) (g : Option Nat), channel_finally env w g
      = { w with file := apply_reset_now w.file } := by
    intro w g
    simp [channel_finally, probe_of_none hcA]
  have hG2 : w2.db.groups = db.groups ++ [G] := by
    rw [hdb2]; simp [hdb1, hWdb]
  have hM2 : w2.db.members = db.members := by
    rw [hdb2]; simp [hdb1, hWdb]
  have hS2 : w2.db.sessions = db.sessions := by
    rw [hdb2]; simp [hdb1, hWdb]
  have hN2 : w2.db.nextGroupId = db.nextGroupId + 1 := by
    rw [hdb2]; simp [hdb1, hWdb]
  have hlook2 : ∀ w : World, w.db.groups = db.groups ++ [G] →
      get_group_by_id (wupdate w "completed" 0 0
        "Channel parsing completed successfully").db G.id = some G := by
    intro w hw
    rw [wupdate_db]
    exact get_group_by_id_created db G w.db hw hg
  simp only [parse_channel_scan_save, hposts, hw1, hw2, List.nil_append]
  by_cases hobj : List.map (to_member_create G.id)
      (dvalues (collect_commenters env postIds [])) = []
  · have hvals : dvalues (collect_commenters env postIds []) = [] := by
      simpa using congrArg List.length hobj
    have hc : ¬ (List.map (to_member_create G.id)
        (dvalues (collect_commenters env postIds [])) ≠ []) := by simp [hobj]
    simp only [if_neg hc, hafter, parse_channel_wrap, hfin, hlook2 w2 hG2]
    refine ⟨_, rfl, ?_, ?_, ?_, ?_, ?_, ?_⟩
    · simp [hG2]
    · simp [hM2, hvals]
    · simp [hS2]
    · simp [hN2]
    · simp [wupdate, apply_reset_now]
    · simp [wupdate]
  · simp only [if_pos hobj, hafter, parse_channel_wrap, hfin]
    simp only [hlook2, create_members_bulk, hG2]
    refine ⟨_, rfl, ?_, ?_, ?_, ?_, ?_, ?_⟩
    · simp [hG2]
    · simp only [wupdate_db]
      rw [List.map_map, hM2]
      rfl
    · simp [hS2]
    · simp [hN2]
    · simp [wupdate, apply_reset_now]
    · simp [wupdate]

/-- Cancelled tail of a `parse_channel` run (flag arrives while the unique
commenters are being converted): the inner handler deletes the fresh Group,
the cancellation `ValueError` re-raises through the outer handler — which
records an "error" phase even on cancellation — and the `finally` reset
deletes the progress record. -/
theorem parse_channel_cancel_step (env : Env) (postLimit : Nat) (db : Db)
    (G : GroupRow) (W : World) (postIds : List Nat) (n : Nat)
    (hposts : env.postsIter = .ok postIds)
    (hcA : env.cancelAfter = some n)
    (hWdb : W.db = { db with
      groups := db.groups ++ [G],
      nextGroupId := db.nextGroupId + 1 })
    (hWfg : file_gid W = some G.id)
    (hle1 : W.processed + postIds.length ≤ n)
    (hlt2 : n < W.processed + postIds.length
      + (dvalues (collect_commenters env postIds [])).length)
    (hg : ∀ gr ∈ db.groups, gr.id ≠ G.id)
    (hm : ∀ m ∈ db.members, m.groupId ≠ G.id) :
    ∃ w, parse_channel_wrap env (parse_channel_scan_save env G postLimit W)
        = (.error cancelMsg, w) ∧
      w.db = { db with nextGroupId := db.nextGroupId + 1 } ∧
      w.file = none ∧
      "error" ∈ w.phases := by
  obtain ⟨w1, hw1, hdb1, hcon1, hproc1, hfg1⟩ := posts_loop_complete env
    postIds.length postIds 0 []
    (wupdate (wupdate W "scanning" 0 0
        ("Getting channel posts (limit: " ++ toString postLimit ++ ")..."))
      "scanning" 0 0 ("Found " ++ toString postIds.length ++ " posts"))
    (fun k hk1 hk2 => by
      simp only [wupdate_processed] at hk2
      simp only [cancel_flag, hcA]
      simpa using by omega)
  simp only [wupdate_processed] at hproc1
  obtain ⟨w2, hw2, hdb2, hcon2, hproc2, hfg2⟩ := commenter_save_loop_cancel env
    G.id n hcA (dvalues (collect_commenters env postIds [])) []
    (wupdate w1 "saving" 0 0
      ("Saving " ++ toString (dkeys (collect_commenters env postIds [])).length
        ++ " unique commenters..."))
    (by simp only [wupdate_processed]; omega)
    (by simp only [wupdate_processed]; omega)
  have hfgW2 : (w2.file.getD {}).currentGroupId = some G.id := by
    have : file_gid w2 = some G.id := by
      rw [hfg2]
      simp only [file_gid_wupdate]
      rw [hfg1]
      simp only [file_gid_wupdate]
      exact hWfg
    exact this
  have hp2 : probe env w2 = true := by
    rw [probe_eq_decide hcA]; simpa using hproc2
  have hdel1 : delete_group w2.db G.id
      = { db with nextGroupId := db.nextGroupId + 1 } := by
    rw [hdb2]
    simp only [wupdate_db]
    rw [hdb1]
    simp only [wupdate_db, hWdb]
    exact delete_group_created db G hg hm
  have hdel2 : delete_group ({ db with
      nextGroupId := db.nextGroupId + 1 } : Db) G.id
      = { db with nextGroupId := db.nextGroupId + 1 } :=
    delete_group_no_refs _ _ (fun gr hgr => hg gr (by simpa using hgr))
      (fun m hmm => hm m (by simpa using hmm))
  have hp3 : ∀ d : Db, probe env { w2 with db := d } = true := by
    intro d
    rw [probe_eq_decide hcA]
    simpa using hproc2
  simp only [parse_channel_scan_save, hposts, hw1, hw2, List.nil_append,
    channel_inner_catch, hfgW2, hp2, Option.isSome_some, Bool.and_true,
    Bool.and_self, if_true, Option.getD_some, hdel1, parse_channel_wrap,
    parse_channel_catch, hp3, hdel2, channel_finally, Option.isSome_none,
    Bool.and_false, Bool.false_eq_true, if_false]
  refine ⟨_, rfl, ?_, ?_, ?_⟩
  · simp
  · simp [wupdate, apply_reset_now]
  · simp [wupdate]

/-- The Group row a successful `parse_channel` run creates for a resolved
broadcast channel. -/
def channel_row_of (db : Db) (ent : EntityInfo) (userId cnt : Nat) : GroupRow :=
  { id := db.nextGroupId, userId := userId, tgGroupId := ent.id,
    groupName := ent.title, groupUsername := ent.username, memberCount := cnt,
    isPublic := ent.username.isSome && !ent.restricted && !ent.isPrivate,
    isChannel := true }

/-- A fully successful `parse_channel` run: the channel Group row is
created, the unique commenters of the surviving posts are persisted against
it, the rest of the store is untouched, the terminal "completed" phase is
recorded, and the `finally` reset deletes the progress record. -/
theorem parse_channel_success (env : Env) (db : Db) (userId postLimit : Nat)
    (s : SessionRow) (ent : EntityInfo) (cnt : Nat) (postIds : List Nat)
    (hs : active_session db userId = some s)
    (hconn : env.connectOk = true)
    (hres : env.resolved = some ent)
    (hch : ent.isChannelType = true)
    (hbr : ent.broadcast = true)
    (hfi : env.fullInfoCount = .ok cnt)
    (hposts : env.postsIter = .ok postIds)
    (hcA : env.cancelAfter = none)
    (hwf : Db.WF db) :
    ∃ w, parse_channel env db userId postLimit
        = (.ok (some (channel_row_of db ent userId cnt)), w) ∧
      w.db.groups = db.groups ++ [channel_row_of db ent userId cnt] ∧
      w.db.members = db.members
        ++ (dvalues (collect_commenters env postIds [])).map
          (member_row_of db.nextGroupId) ∧
      w.db.sessions = db.sessions ∧
      w.db.nextGroupId = db.nextGroupId + 1 ∧
      w.file = none ∧
      "completed" ∈ w.phases := by
  simp only [parse_channel, parse_channel_body, wupdate_db, hs, hconn,
    Bool.not_true, Bool.false_eq_true, if_false, probe_of_none hcA, hres, hch,
    hbr, Bool.and_self, hfi, if_true, create_group]
  exact parse_channel_ok_step env postLimit db _ _ postIds hposts hcA rfl
    (fun gr hgr => by simpa using Nat.ne_of_lt (hwf.1 gr hgr))

/-- A `parse_channel` run cancelled while the unique commenters are being
converted: the run raises the cancellation error, the just-created Group
and its members are rolled back, the tracker records a terminal "error"
phase (not "cancelled" — the outer handler overwrites it), and the
`finally` reset deletes the progress record. -/
theorem parse_channel_cancel_run (env : Env) (db : Db) (userId postLimit : Nat)
    (s : SessionRow) (ent : EntityInfo) (cnt : Nat) (postIds : List Nat)
    (n : Nat)
    (hs : active_session db userId = some s)
    (hconn : env.connectOk = true)
    (hres : env.resolved = some ent)
    (hch : ent.isChannelType = true)
    (hbr : ent.broadcast = true)
    (hfi : env.fullInfoCount = .ok cnt)
    (hposts : env.postsIter = .ok postIds)
    (hcA : env.cancelAfter = some n)
    (hn : 0 < n)
    (hle1 : postIds.length ≤ n)
    (hlt2 : n < postIds.length
      + (dvalues (collect_commenters env postIds [])).length)
    (hwf : Db.WF db) :
    ∃ w, parse_channel env db userId postLimit = (.error cancelMsg, w) ∧
      w.db = { db with nextGroupId := db.nextGroupId + 1 } ∧
      w.file = none ∧
      "error" ∈ w.phases := by
  have hdec : (decide (n ≤ 0)) = false := by
    simp
    omega
  simp only [parse_channel, parse_channel_body, wupdate_db, hs, hconn,
    Bool.not_true, Bool.false_eq_true, if_false, probe, cancel_flag, hcA,
    wupdate_processed, hdec, hres, hch, hbr, Bool.and_self, hfi, if_true,
    create_group]
  exact parse_channel_cancel_step env postLimit db _ _ postIds n hposts hcA
    rfl rfl (by simpa using hle1) (by simpa using hlt2)
    (fun gr hgr => by simpa using Nat.ne_of_lt (hwf.1 gr hgr))
    (fun m hmm => by simpa using Nat.ne_of_lt (hwf.2 m hmm))

/-! ## Claim C2 -/

/-- C2: a parse cancelled mid-scan — the flag arrives after `n` scan-loop
iterations with `0 < n` and `n` at most the number of records to process —
raises a cancellation error, and afterwards zero Group rows and zero Member
rows from that operation remain persisted: in both `parse_group` and
`parse_channel` the just-created Group is deleted together with its
members, leaving the tables exactly as before the run. -/
theorem c2_cancel_rollback :
    (∀ (env : Env) (db : Db) (userId commentLimit : Nat) (s : SessionRow)
        (ent : EntityInfo) (cnt : Nat) (admins : List Nat) (total n : Nat),
      active_session db userId = some s → env.connectOk = true →
      env.resolved = some ent → ent.isChannelType = true →
      env.fullInfoCount = .ok cnt → env.adminScan = .ok admins →
      env.scanCount = .ok total → env.cancelAfter = some n →
      0 < n → n ≤ (env.participants.filter (·.isUser)).length → Db.WF db →
      ∃ w, parse_group env db userId false commentLimit
          = (.error ("Error parsing chat: " ++ cancelMsg), w) ∧
        w.db.groups = db.groups ∧ w.db.members = db.members) ∧
    (∀ (env : Env) (db : Db) (userId postLimit : Nat) (s : SessionRow)
        (ent : EntityInfo) (cnt : Nat) (postIds : List Nat) (n : Nat),
      active_session db userId = some s → env.connectOk = true →
      env.resolved = some ent → ent.isChannelType = true →
      ent.broadcast = true → env.fullInfoCount = .ok cnt →
      env.postsIter = .ok postIds → env.cancelAfter = some n →
      0 < n → postIds.length ≤ n →
      n < postIds.length
        + (dvalues (collect_commenters env postIds [])).length → Db.WF db →
      ∃ w, parse_channel env db userId postLimit = (.error cancelMsg, w) ∧
        w.db.groups = db.groups ∧ w.db.members = db.members) := by
  constructor
  · intro env db userId commentLimit s ent cnt admins total n hs hconn hres
      hch hfi hadm hsc hcA hn hnM hwf
    obtain ⟨w, hw, hdb, _⟩ := parse_group_cancel_run env db userId commentLimit
      s ent cnt admins total n hs hconn hres hch hfi hadm hsc hcA hn hnM hwf
    exact ⟨w, hw, by rw [hdb], by rw [hdb]⟩
  · intro env db userId postLimit s ent cnt postIds n hs hconn hres hch hbr
      hfi hposts hcA hn hle1 hlt2 hwf
    obtain ⟨w, hw, hdb, _, _⟩ := parse_channel_cancel_run env db userId
      postLimit s ent cnt postIds n hs hconn hres hch hbr hfi hposts hcA hn
      hle1 hlt2 hwf
    exact ⟨w, hw, by rw [hdb], by rw [hdb]⟩

/-- The store the concrete cancellation scenarios start from: one active
session for user 7, no groups, no members. -/
def c2_db : Db := { sessions := [{ userId := 7, sessionString := some "s" }] }

/-- Concrete chat environment for the cancelled `parse_group` scenario:
three scannable participants, the flag arriving after one of them. -/
def c2_envG : Env :=
  { resolved := some { id := 42, title := "T" },
    fullInfoCount := .ok 3, scanCount := .ok 3,
    participants := [{ id := 11 }, { id := 12 }, { id := 13 }],
    cancelAfter := some 1 }

/-- Concrete channel environment for the cancelled `parse_channel`
scenario: one post with one commenter, the flag arriving after the post is
processed. -/
def c2_envC : Env :=
  { resolved := some { id := 42, title := "T", broadcast := true },
    fullInfoCount := .ok 5, postsIter := .ok [101],
    postComments := fun _ => .ok [{ id := 21 }],
    cancelAfter := some 1 }

/-- Witness for `c2_cancel_rollback`: both concrete cancelled runs error out
and leave the store without any Group or Member row. -/
theorem c2_cancel_rollback_witness :
    (∃ w, parse_group c2_envG c2_db 7 false 10
        = (.error ("Error parsing chat: " ++ cancelMsg), w) ∧
      w.db.groups = c2_db.groups ∧ w.db.members = c2_db.members) ∧
    (∃ w, parse_channel c2_envC c2_db 7 10 = (.error cancelMsg, w) ∧
      w.db.groups = c2_db.groups ∧ w.db.members = c2_db.members) := by
  constructor
  · exact c2_cancel_rollback.1 c2_envG c2_db 7 10 _ _ 3 [] 3 1 rfl rfl rfl rfl
      rfl rfl rfl rfl (by decide) (by decide) (by simp [Db.WF, c2_db])
  · exact c2_cancel_rollback.2 c2_envC c2_db 7 10 _ _ 5 [101] 1 rfl rfl rfl
      rfl rfl rfl rfl rfl (by decide) (by decide) (by decide)
      (by simp [Db.WF, c2_db])

/-! ## Claim C4 -/

/-- C4 counterexample: there is no 10-15 second grace window.
`_reset_progress` deletes a "completed" or "error" record on the spot, and
the only deferred deletion — for "cancelled" — waits 2 seconds. -/
theorem c4_terminal_grace_counterexample :
    reset_progress_action (some { currentPhase := "completed" })
      = .removeNow ∧
    reset_progress_action (some { currentPhase := "error" }) = .removeNow ∧
    reset_progress_action (some { currentPhase := "cancelled" })
      = .removeAfter delayed_reset_seconds ∧
    delayed_reset_seconds = 2 ∧ ¬ 10 ≤ delayed_reset_seconds := by
  decide

/-- C4 (amended): `_reset_progress` keeps only a "cancelled" record, and
only for the 2-second `_delayed_reset` grace period; every other record is
deleted immediately.  A successful `parse_channel` run ends with the
progress record already deleted (its `finally` clause resets a "completed"
record at once), while `parse_group` never resets at all: its "completed"
record stays readable indefinitely. -/
theorem c4_terminal_grace_spec :
    (∀ p : ParsingProgress,
      reset_progress_action (some p)
        = if p.currentPhase = "cancelled"
            then .removeAfter delayed_reset_seconds else .removeNow) ∧
    delayed_reset_seconds = 2 ∧
    (∀ (env : Env) (db : Db) (userId postLimit : Nat) (s : SessionRow)
        (ent : EntityInfo) (cnt : Nat) (postIds : List Nat),
      active_session db userId = some s → env.connectOk = true →
      env.resolved = some ent → ent.isChannelType = true →
      ent.broadcast = true → env.fullInfoCount = .ok cnt →
      env.postsIter = .ok postIds → env.cancelAfter = none → Db.WF db →
      (parse_channel env db userId postLimit).2.file = none) ∧
    (∀ (env : Env) (db : Db) (userId commentLimit : Nat) (s : SessionRow)
        (ent : EntityInfo) (cnt : Nat) (admins : List Nat) (total : Nat),
      active_session db userId = some s → env.connectOk = true →
      env.resolved = some ent → ent.isChannelType = true →
      env.fullInfoCount = .ok cnt → env.adminScan = .ok admins →
      env.scanCount = .ok total → env.cancelAfter = none →
      (parse_group env db userId false commentLimit).2.file.map
        (·.currentPhase) = some "completed") := by
  refine ⟨fun p => rfl, rfl, ?_, ?_⟩
  · intro env db userId postLimit s ent cnt postIds hs hconn hres hch hbr hfi
      hposts hcA hwf
    obtain ⟨w, hw, _, _, _, _, hfile, _⟩ := parse_channel_success env db userId
      postLimit s ent cnt postIds hs hconn hres hch hbr hfi hposts hcA hwf
    rw [hw]
    exact hfile
  · intro env db userId commentLimit s ent cnt admins total hs hconn hres hch
      hfi hadm hsc hcA
    obtain ⟨w, hw, _, _, _, _, hph⟩ := parse_group_members_success env db
      userId commentLimit s ent cnt admins total hs hconn hres hch hfi hadm
      hsc hcA
    rw [hw]
    exact hph

/-- The store the concrete grace-window scenarios start from. -/
def c4_db : Db := { sessions := [{ userId := 7, sessionString := some "s" }] }

/-- Concrete chat environment for a successful `parse_group` run. -/
def c4_envG : Env :=
  { resolved := some { id := 42, title := "T" },
    fullInfoCount := .ok 3, scanCount := .ok 2,
    participants := [{ id := 11 }, { id := 12 }] }

/-- Concrete channel environment for a successful `parse_channel` run. -/
def c4_envC : Env :=
  { resolved := some { id := 42, title := "T", broadcast := true },
    fullInfoCount := .ok 5, postsIter := .ok [101],
    postComments := fun _ => .ok [{ id := 21 }] }

/-- Witness for `c4_terminal_grace_spec`: the "cancelled" record is kept for
the 2-second grace, the concrete channel run ends with no record, and the
concrete chat run leaves the "completed" record in place. -/
theorem c4_terminal_grace_spec_witness :
    reset_progress_action (some { currentPhase := "cancelled" })
      = (if ("cancelled" : String) = "cancelled"
          then .removeAfter delayed_reset_seconds else .removeNow) ∧
    (parse_channel c4_envC c4_db 7 10).2.file = none ∧
    (parse_group c4_envG c4_db 7 false 10).2.file.map (·.currentPhase)
      = some "completed" := by
  refine ⟨c4_terminal_grace_spec.1 { currentPhase := "cancelled" }, ?_, ?_⟩
  · exact c4_terminal_grace_spec.2.2.1 c4_envC c4_db 7 10 _ _ 5 [101] rfl rfl
      rfl rfl rfl rfl rfl rfl (by simp [Db.WF, c4_db])
  · exact c4_terminal_grace_spec.2.2.2 c4_envG c4_db 7 10 _ _ 3 [] 2 rfl rfl
      rfl rfl rfl rfl rfl rfl

/-! ## Claim C10 -/

/-- C10: a non-cancellation failure of the comment scan is swallowed by
`_get_comment_users`, which reports an empty member list as a normal
result; a comment-mode `parse_group` run therefore still returns the Group
successfully, reaches the terminal "completed" phase, and persists zero
members — the caller sees no failure. -/
theorem c10_comment_scan_error_swallowed :
    (∀ (env : Env) (limit : Nat) (e : String) (w : World),
      env.msgIter = .error e →
      (get_comment_users env limit w).1 = .ok [] ∧
      (get_comment_users env limit w).2.db = w.db) ∧
    (∀ (env : Env) (db : Db) (userId commentLimit : Nat) (s : SessionRow)
        (ent : EntityInfo) (cnt : Nat) (e : String),
      active_session db userId = some s → env.connectOk = true →
      env.resolved = some ent → ent.isChannelType = true →
      env.fullInfoCount = .ok cnt → env.msgIter = .error e →
      env.cancelAfter = none →
      ∃ w, parse_group env db userId true commentLimit
          = (.ok (group_row_of db ent userId cnt), w) ∧
        w.db.members = db.members ∧
        w.file.map (·.currentPhase) = some "completed") := by
  constructor
  · intro env limit e w hcm
    rw [get_comment_users_err env limit e hcm w]
    exact ⟨rfl, by simp⟩
  · intro env db userId commentLimit s ent cnt e hs hconn hres hch hfi hcm hcA
    obtain ⟨w, hw, _, hm, _, _, hph⟩ := parse_group_comments_error_run env db
      userId commentLimit s ent cnt e hs hconn hres hch hfi hcm hcA
    exact ⟨w, hw, by simpa using hm, hph⟩

/-- The store the concrete swallowed-error scenario starts from. -/
def c10_db : Db := { sessions := [{ userId := 7, sessionString := some "s" }] }

/-- Concrete environment whose comment iteration raises a generic error. -/
def c10_env : Env :=
  { resolved := some { id := 42, title := "T" },
    fullInfoCount := .ok 3, msgIter := .error "boom" }

/-- Witness for `c10_comment_scan_error_swallowed`: the failing concrete
comment scan yields an empty result, and the concrete comment-mode run
still completes with no members persisted. -/
theorem c10_comment_scan_error_swallowed_witness :
    (get_comment_users c10_env 10 { db := c10_db }).1 = .ok [] ∧
    (∃ w, parse_group c10_env c10_db 7 true 10
        = (.ok (group_row_of c10_db { id := 42, title := "T" } 7 3), w) ∧
      w.db.members = c10_db.members ∧
      w.file.map (·.currentPhase) = some "completed") := by
  constructor
  · exact (c10_comment_scan_error_swallowed.1 c10_env 10 "boom"
      { db := c10_db } rfl).1
  · exact c10_comment_scan_error_swallowed.2 c10_env c10_db 7 10 _ _ 3 "boom"
      rfl rfl rfl rfl rfl rfl rfl

/-! ## Claim C6 -/

/-- The member rows a run appended for the fresh Group are exactly what
`member_rows_for` returns, provided no pre-existing row references its id. -/
theorem member_rows_for_of_members (D db : Db) (gid : Nat)
    (L : List MemberData)
    (hM : D.members = db.members ++ L.map (member_row_of gid))
    (hm : ∀ m ∈ db.members, m.groupId ≠ gid) :
    member_rows_for D gid = L.map (member_row_of gid) := by
  simp only [member_rows_for, hM, List.filter_append]
  have h1 : db.members.filter (fun m => m.groupId == gid) = [] :=
    List.filter_eq_nil_iff.mpr (fun m hmm => by simpa using hm m hmm)
  have h2 : (L.map (member_row_of gid)).filter (fun m => m.groupId == gid)
      = L.map (member_row_of gid) :=
    List.filter_eq_self.mpr (fun m hmm => by
      obtain ⟨x, hx, rfl⟩ := List.mem_map.mp hmm
      simp [member_row_of])
  simp [h1, h2]

/-- Member rows keep the scanned records' user ids, in order. -/
theorem member_rows_ids (gid : Nat) (L : List MemberData) :
    (L.map (member_row_of gid)).map (·.userId) = L.map (·.userId) := by
  rw [List.map_map]
  rfl

/-- The store the concrete distinct-member scenarios start from. -/
def c6_db : Db := { sessions := [{ userId := 7, sessionString := some "s" }] }

/-- Concrete chat environment whose participant iteration yields the same
user twice. -/
def c6_dup_env : Env :=
  { resolved := some { id := 42, title := "T" },
    fullInfoCount := .ok 2, scanCount := .ok 2,
    participants := [{ id := 11 }, { id := 11 }] }

/-- C6 counterexample: the duplicate-yielding scan succeeds and leaves two
rows with user id 11 in the fresh Group. -/
theorem c6_distinct_members_counterexample :
    (parse_group c6_dup_env c6_db 7 false 10).1
      = .ok (group_row_of c6_db { id := 42, title := "T" } 7 2) ∧
    (member_rows_for (parse_group c6_dup_env c6_db 7 false 10).2.db
        c6_db.nextGroupId).map (·.userId) = [11, 11] ∧
    ¬ ((member_rows_for (parse_group c6_dup_env c6_db 7 false 10).2.db
        c6_db.nextGroupId).map (·.userId)).Nodup := by
  refine ⟨rfl, rfl, by decide⟩

/-- C6 (amended): in member mode the persisted rows of the fresh Group are
exactly the scanned records, so the distinct persisted user ids coincide
with the distinct scanned ids — but duplicate rows for one user id appear
whenever the scanner itself yields duplicates, as nothing deduplicates
member mode.  The comment and channel scanners dedupe by user id before
saving, so their persisted rows are always duplicate-free. -/
theorem c6_distinct_members_spec :
    (∀ (env : Env) (db : Db) (userId commentLimit : Nat) (s : SessionRow)
        (ent : EntityInfo) (cnt : Nat) (admins : List Nat) (total : Nat),
      active_session db userId = some s → env.connectOk = true →
      env.resolved = some ent → ent.isChannelType = true →
      env.fullInfoCount = .ok cnt → env.adminScan = .ok admins →
      env.scanCount = .ok total → env.cancelAfter = none → Db.WF db →
      ∃ w, parse_group env db userId false commentLimit
          = (.ok (group_row_of db ent userId cnt), w) ∧
        (member_rows_for w.db db.nextGroupId).map (·.userId)
          = (scanned_members env admins).map (·.userId) ∧
        ((member_rows_for w.db db.nextGroupId).map (·.userId)).dedup.length
          = ((scanned_members env admins).map (·.userId)).dedup.length ∧
        (((scanned_members env admins).map (·.userId)).Nodup →
          ((member_rows_for w.db db.nextGroupId).map (·.userId)).Nodup)) ∧
    (∀ (env : Env) (db : Db) (userId commentLimit : Nat) (s : SessionRow)
        (ent : EntityInfo) (cnt : Nat) (msgs : List MsgInfo),
      active_session db userId = some s → env.connectOk = true →
      env.resolved = some ent → ent.isChannelType = true →
      env.fullInfoCount = .ok cnt → env.msgIter = .ok msgs →
      env.cancelAfter = none → Db.WF db →
      ∃ w, parse_group env db userId true commentLimit
          = (.ok (group_row_of db ent userId cnt), w) ∧
        (member_rows_for w.db db.nextGroupId).map (·.userId)
          = (dvalues (comment_users_map msgs [])).map (·.userId) ∧
        ((member_rows_for w.db db.nextGroupId).map (·.userId)).Nodup) ∧
    (∀ (env : Env) (db : Db) (userId postLimit : Nat) (s : SessionRow)
        (ent : EntityInfo) (cnt : Nat) (postIds : List Nat),
      active_session db userId = some s → env.connectOk = true →
      env.resolved = some ent → ent.isChannelType = true →
      ent.broadcast = true → env.fullInfoCount = .ok cnt →
      env.postsIter = .ok postIds → env.cancelAfter = none → Db.WF db →
      ∃ w, parse_channel env db userId postLimit
          = (.ok (some (channel_row_of db ent userId cnt)), w) ∧
        (member_rows_for w.db db.nextGroupId).map (·.userId)
          = (dvalues (collect_commenters env postIds [])).map (·.userId) ∧
        ((member_rows_for w.db db.nextGroupId).map (·.userId)).Nodup) := by
  refine ⟨?_, ?_, ?_⟩
  · intro env db userId commentLimit s ent cnt admins total hs hconn hres hch
      hfi hadm hsc hcA hwf
    obtain ⟨w, hw, _, hm, _, _, _⟩ := parse_group_members_success env db
      userId commentLimit s ent cnt admins total hs hconn hres hch hfi hadm
      hsc hcA
    have hr : member_rows_for w.db db.nextGroupId
        = (scanned_members env admins).map (member_row_of db.nextGroupId) :=
      member_rows_for_of_members w.db db db.nextGroupId _ hm
        (fun m hmm => Nat.ne_of_lt (hwf.2 m hmm))
    have hids : (member_rows_for w.db db.nextGroupId).map (·.userId)
        = (scanned_members env admins).map (·.userId) := by
      rw [hr]
      exact member_rows_ids _ _
    exact ⟨w, hw, hids, by rw [hids], fun h => by rw [hids]; exact h⟩
  · intro env db userId commentLimit s ent cnt msgs hs hconn hres hch hfi hcm
      hcA hwf
    obtain ⟨w, hw, _, hm, _, _, _⟩ := parse_group_comments_success env db
      userId commentLimit s ent cnt msgs hs hconn hres hch hfi hcm hcA
    have hr : member_rows_for w.db db.nextGroupId
        = (dvalues (comment_users_map msgs [])).map
          (member_row_of db.nextGroupId) :=
      member_rows_for_of_members w.db db db.nextGroupId _ hm
        (fun m hmm => Nat.ne_of_lt (hwf.2 m hmm))
    have hids : (member_rows_for w.db db.nextGroupId).map (·.userId)
        = (dvalues (comment_users_map msgs [])).map (·.userId) := by
      rw [hr]
      exact member_rows_ids _ _
    refine ⟨w, hw, hids, ?_⟩
    rw [hids, dvalues_ids_of_id_keyed _
      (comment_users_map_id_keyed msgs [] id_keyed_nil)]
    exact comment_users_map_nodup msgs [] (by simp [dkeys])
  · intro env db userId postLimit s ent cnt postIds hs hconn hres hch hbr hfi
      hposts hcA hwf
    obtain ⟨w, hw, _, hm, _, _, _, _⟩ := parse_channel_success env db userId
      postLimit s ent cnt postIds hs hconn hres hch hbr hfi hposts hcA hwf
    have hr : member_rows_for w.db db.nextGroupId
        = (dvalues (collect_commenters env postIds [])).map
          (member_row_of db.nextGroupId) :=
      member_rows_for_of_members w.db db db.nextGroupId _ hm
        (fun m hmm => Nat.ne_of_lt (hwf.2 m hmm))
    have hids : (member_rows_for w.db db.nextGroupId).map (·.userId)
        = (dvalues (collect_commenters env postIds [])).map (·.userId) := by
      rw [hr]
      exact member_rows_ids _ _
    refine ⟨w, hw, hids, ?_⟩
    rw [hids, dvalues_ids_of_id_keyed _
      (collect_commenters_id_keyed env postIds [] id_keyed_nil)]
    exact collect_commenters_nodup env postIds [] (by simp [dkeys])

/-- Concrete chat environment with two distinct participants. -/
def c6_envG : Env :=
  { resolved := some { id := 42, title := "T" },
    fullInfoCount := .ok 2, scanCount := .ok 2,
    participants := [{ id := 11 }, { id := 12 }] }

/-- Concrete chat environment whose comment scan sees user 11 twice. -/
def c6_envM : Env :=
  { resolved := some { id := 42, title := "T" },
    fullInfoCount := .ok 2,
    msgIter := .ok [{ senderId := some 11, sender := some { id := 11 } },
      { senderId := some 11, sender := some { id := 11 } }] }

/-- Concrete channel environment whose single post has one commenter. -/
def c6_envC : Env :=
  { resolved := some { id := 42, title := "T", broadcast := true },
    fullInfoCount := .ok 5, postsIter := .ok [101],
    postComments := fun _ => .ok [{ id := 21 }] }

/-- Witness for `c6_distinct_members_spec`: all three concrete successful
scans persist exactly the scanned distinct ids. -/
theorem c6_distinct_members_spec_witness :
    (∃ w, parse_group c6_envG c6_db 7 false 10
        = (.ok (group_row_of c6_db { id := 42, title := "T" } 7 2), w) ∧
      (member_rows_for w.db c6_db.nextGroupId).map (·.userId)
        = (scanned_members c6_envG []).map (·.userId) ∧
      ((member_rows_for w.db c6_db.nextGroupId).map (·.userId)).dedup.length
        = ((scanned_members c6_envG []).map (·.userId)).dedup.length ∧
      (((scanned_members c6_envG []).map (·.userId)).Nodup →
        ((member_rows_for w.db c6_db.nextGroupId).map (·.userId)).Nodup)) ∧
    (∃ w, parse_group c6_envM c6_db 7 true 10
        = (.ok (group_row_of c6_db { id := 42, title := "T" } 7 2), w) ∧
      (member_rows_for w.db c6_db.nextGroupId).map (·.userId)
        = (dvalues (comment_users_map
            [{ senderId := some 11, sender := some { id := 11 } },
             { senderId := some 11, sender := some { id := 11 } }] [])).map
          (·.userId) ∧
      ((member_rows_for w.db c6_db.nextGroupId).map (·.userId)).Nodup) ∧
    (∃ w, parse_channel c6_envC c6_db 7 10
        = (.ok (some (channel_row_of c6_db
            { id := 42, title := "T", broadcast := true } 7 5)), w) ∧
      (member_rows_for w.db c6_db.nextGroupId).map (·.userId)
        = (dvalues (collect_commenters c6_envC [101] [])).map (·.userId) ∧
      ((member_rows_for w.db c6_db.nextGroupId).map (·.userId)).Nodup) := by
  refine ⟨?_, ?_, ?_⟩
  · exact c6_distinct_members_spec.1 c6_envG c6_db 7 10 _ _ 2 [] 2 rfl rfl rfl
      rfl rfl rfl rfl rfl (by simp [Db.WF, c6_db])
  · exact c6_distinct_members_spec.2.1 c6_envM c6_db 7 10 _ _ 2 _ rfl rfl rfl
      rfl rfl rfl rfl (by simp [Db.WF, c6_db])
  · exact c6_distinct_members_spec.2.2 c6_envC c6_db 7 10 _ _ 5 [101] rfl rfl
      rfl rfl rfl rfl rfl rfl (by simp [Db.WF, c6_db])

/-! ## Claim C1 -/

/-- The store the concrete double-parse scenario starts from. -/
def c1_db : Db := { sessions := [{ userId := 7, sessionString := some "s" }] }

/-- Concrete environment for two identical successful comment-mode runs. -/
def c1_env : Env :=
  { resolved := some { id := 42, title := "T" },
    fullInfoCount := .ok 3, msgIter := .ok [] }

/-- C1 counterexample: two successful app-path parses of the same
(user, entity) pair leave TWO Group rows for the pair — `create_group`
never deletes a previous row. -/
theorem c1_unique_group_counterexample :
    (∃ g, (parse_group c1_env c1_db 7 true 10).1 = .ok g) ∧
    (∃ g, (parse_group c1_env
        (parse_group c1_env c1_db 7 true 10).2.db 7 true 10).1 = .ok g) ∧
    (group_rows_for (parse_group c1_env
        (parse_group c1_env c1_db 7 true 10).2.db 7 true 10).2.db 7 42).length
      = 2 := by
  exact ⟨⟨_, rfl⟩, ⟨_, rfl⟩, rfl⟩

/-- C1 (amended): the app path (`crud.create_group`) inserts without any
lookup or deletion, so every successful `parse_group` run APPENDS one more
Group row for its (user, network id) pair; the delete-and-recreate
behaviour the spec describes exists only in the legacy `simple_run.py`
database block, which does leave exactly one row for the pair. -/
theorem c1_unique_group_spec :
    (∀ (db : Db) (obj : ParsedGroupCreate) (userId : Nat),
      ((create_group db obj userId).2).groups
        = db.groups ++ [(create_group db obj userId).1]) ∧
    (∀ (env : Env) (db : Db) (userId commentLimit : Nat) (s : SessionRow)
        (ent : EntityInfo) (cnt : Nat) (msgs : List MsgInfo),
      active_session db userId = some s → env.connectOk = true →
      env.resolved = some ent → ent.isChannelType = true →
      env.fullInfoCount = .ok cnt → env.msgIter = .ok msgs →
      env.cancelAfter = none →
      ∃ w, parse_group env db userId true commentLimit
          = (.ok (group_row_of db ent userId cnt), w) ∧
        group_rows_for w.db userId ent.id
          = group_rows_for db userId ent.id
            ++ [group_row_of db ent userId cnt]) ∧
    (∀ (db : Db) (userId : Nat) (obj : ParsedGroupCreate)
        (ms : List MemberData),
      group_rows_for (simple_run_save_group db userId obj ms) userId
          obj.tgGroupId
        = [{ id := db.nextGroupId, userId := userId,
             tgGroupId := obj.tgGroupId, groupName := obj.groupName,
             groupUsername := obj.groupUsername,
             memberCount := obj.memberCount, isPublic := obj.isPublic }]) := by
  refine ⟨fun db obj userId => rfl, ?_, ?_⟩
  · intro env db userId commentLimit s ent cnt msgs hs hconn hres hch hfi hcm
      hcA
    obtain ⟨w, hw, hG, _, _, _, _⟩ := parse_group_comments_success env db
      userId commentLimit s ent cnt msgs hs hconn hres hch hfi hcm hcA
    refine ⟨w, hw, ?_⟩
    simp [group_rows_for, hG, List.filter_append, group_row_of]
  · intro db userId obj ms
    have h0 : List.filter
        (fun r => r.userId == userId && r.tgGroupId == obj.tgGroupId)
        (List.filter
          (fun r => !(r.tgGroupId == obj.tgGroupId && r.userId == userId))
          db.groups) = [] := by
      refine List.filter_eq_nil_iff.mpr ?_
      intro r hr
      have hq := (List.mem_filter.mp hr).2
      simp at hq ⊢
      tauto
    simp [simple_run_save_group, group_rows_for, List.filter_append, h0]
    exact fun a _ h1 h2 => ⟨h2, h1⟩

/-- Witness for `c1_unique_group_spec`: the concrete successful run appends
a second row for the (7, 42) pair rather than replacing the first. -/
theorem c1_unique_group_spec_witness :
    ∃ w, parse_group c1_env c1_db 7 true 10
        = (.ok (group_row_of c1_db { id := 42, title := "T" } 7 3), w) ∧
      group_rows_for w.db 7 42
        = group_rows_for c1_db 7 42
          ++ [group_row_of c1_db { id := 42, title := "T" } 7 3] := by
  exact c1_unique_group_spec.2.1 c1_env c1_db 7 10 _ _ 3 [] rfl rfl rfl rfl
    rfl rfl rfl
